import Mathlib

/-!
# Two-player card game: shallow embedding and verified properties

The definitions below embed the game logic of `src/server.c` (namespace `Server`) and the
state parser and move encoder of `src/client.c` (namespace `Client`).

Modelling conventions.

* A C string (`char[]` holding a NUL-terminated text) is a `List Char`: the characters
  before the terminating NUL.  String literals of the source are written `"...".toList`.
* A C `int` is an `Int`.  The results of `health -= power`, `health += power` and
  `power -= 1` go through `int32`, the two's complement wrap to 32 bits that the compiled
  program performs on overflow; the other integer computations of the program cannot
  leave the range.  The library function `atoi` is `(int) strtol(s, NULL, 10)` with a
  64-bit `long`.  Theorems that print stored values assume `isInt` (the 32-bit range) of
  the values found in the state, which every C state satisfies.
* Undefined behaviour (indexing `players[]` outside `0..1`, indexing `hand[]` outside
  `0..MAX_CARDS-1`, `strcat` past the end of `message`) is the result `none`.
* Sockets, the log file and `printf` output are not part of the state: `recv` is the
  input of one loop iteration and the text handed to `send` is the result of
  `send_game_state`.
-/

namespace Server

/-! ## Constants and data model (server.c, lines 11-36) -/

def BUFFER_SIZE : Nat := 1024
def MAX_CARDS : Nat := 5
def MAX_PLAYERS : Nat := 2

/-- Range of a 32-bit C `int`. -/
def INT_MIN : Int := -2147483648
def INT_MAX : Int := 2147483647

/-- Values representable in a C `int`. -/
def isInt (x : Int) : Prop := INT_MIN ≤ x ∧ x ≤ INT_MAX

instance (x : Int) : Decidable (isInt x) :=
  inferInstanceAs (Decidable (INT_MIN ≤ x ∧ x ≤ INT_MAX))

/-- Range of a 64-bit C `long`. -/
def LONG_MIN : Int := -9223372036854775808
def LONG_MAX : Int := 9223372036854775807

/-- The value held by a C `int` after it is assigned the arithmetic result `x`: the two's
complement wrap of `x` to 32 bits. -/
def int32 (x : Int) : Int := (x + 2147483648) % 4294967296 - 2147483648

/-- Card record: `name[20]`, `power`, `type[10]`. -/
structure Card where
  name : List Char
  power : Int
  type : List Char
deriving DecidableEq, Repr

/-- Player record: `health`, `hand[MAX_CARDS]`, `hand_size` (the socket is not modelled). -/
structure Player where
  health : Int
  hand : List Card
  hand_size : Int
deriving DecidableEq, Repr

/-- Game state: `players[MAX_PLAYERS]` (a pair, as `MAX_PLAYERS = 2`), `current_turn`,
`game_over`. -/
structure GameState where
  players : Player × Player
  current_turn : Int
  game_over : Int
deriving DecidableEq, Repr

/-- Read of `players[i]`; `none` when `i` is outside the array. -/
def GameState.player (gs : GameState) (i : Int) : Option Player :=
  if i = 0 then some gs.players.1
  else if i = 1 then some gs.players.2
  else none

/-- In-place update of `players[i]`; `none` when `i` is outside the array. -/
def GameState.modifyPlayer (gs : GameState) (i : Int) (f : Player → Player) :
    Option GameState :=
  if i = 0 then some { gs with players := (f gs.players.1, gs.players.2) }
  else if i = 1 then some { gs with players := (gs.players.1, f gs.players.2) }
  else none

/-! ## C library functions used by the server -/

/-- The library function `strncmp(a, b, n)`: difference of the first differing characters
among the first `n`, the end of a string counting as NUL. -/
def strncmp : List Char → List Char → Nat → Int
  | _, _, 0 => 0
  | [], [], _ + 1 => 0
  | [], b :: _, _ + 1 => 0 - (b.toNat : Int)
  | a :: _, [], _ + 1 => (a.toNat : Int)
  | a :: as, b :: bs, n + 1 =>
    if a = b then strncmp as bs n else (a.toNat : Int) - (b.toNat : Int)

/-- The library function `strcmp(a, b)`. -/
def strcmp : List Char → List Char → Int
  | [], [] => 0
  | [], b :: _ => 0 - (b.toNat : Int)
  | a :: _, [] => (a.toNat : Int)
  | a :: as, b :: bs => if a = b then strcmp as bs else (a.toNat : Int) - (b.toNat : Int)

/-- The library predicate `isspace` in the C locale. -/
def isspace (c : Char) : Bool :=
  c = ' ' || c = '\t' || c = '\n' || c = '\x0b' || c = '\x0c' || c = '\r'

/-- Value of the longest run of decimal digits at the start of the text, continuing
from `acc`. -/
def parseDigits (acc : Nat) : List Char → Nat
  | [] => acc
  | c :: cs => if c.isDigit then parseDigits (acc * 10 + (c.toNat - 48)) cs else acc

/-- The number that `strtol` finds at the start of a text: skip white space, read an
optional sign, then the longest run of digits; `0` when there is no digit. -/
def atoi_value (s : List Char) : Int :=
  match s.dropWhile isspace with
  | '-' :: cs => - (parseDigits 0 cs : Int)
  | '+' :: cs => (parseDigits 0 cs : Int)
  | cs => (parseDigits 0 cs : Int)

/-- The library function `strtol(s, NULL, 10)`: the number found, brought to `LONG_MIN`
or `LONG_MAX` when it is outside the range of `long`. -/
def strtol (s : List Char) : Int :=
  if atoi_value s < LONG_MIN then LONG_MIN
  else if atoi_value s > LONG_MAX then LONG_MAX
  else atoi_value s

/-- The library function `atoi`, which is `(int) strtol(s, NULL, 10)`. -/
def atoi (s : List Char) : Int := int32 (strtol s)

/-- Character of the decimal digit `d`. -/
def digitChar (d : Nat) : Char := Char.ofNat (48 + d)

/-- Decimal digits of `n`, most significant first; the first argument bounds the number
of digits produced. -/
def natDigits : Nat → Nat → List Char
  | 0, _ => []
  | fuel + 1, n =>
    if n < 10 then [digitChar n] else natDigits fuel (n / 10) ++ [digitChar (n % 10)]

/-- Output of the `printf` conversion `%u`. -/
def fmt_u (n : Nat) : List Char := natDigits (n + 1) n

/-- Output of the `printf` conversion `%d`. -/
def fmt_d (x : Int) : List Char :=
  if x < 0 then '-' :: fmt_u x.natAbs else fmt_u x.natAbs

/-- Result buffer of `snprintf(buf, size, ...)` for the formatted text `s`: at most
`size - 1` characters are stored. -/
def snprintf (size : Nat) (s : List Char) : List Char := s.take (size - 1)

/-- Result of `strcat(dst, src)` on a destination array of `cap` bytes; `none` when the
result and its NUL do not fit. -/
def strcat (cap : Nat) (dst src : List Char) : Option (List Char) :=
  if dst.length + src.length < cap then some (dst ++ src) else none

/-! ## `remove_newline` (server.c, lines 351-357) -/

def remove_newline (str : List Char) : List Char :=
  if str.length = 0 then str
  else if str.getLast? = some '\n' then str.dropLast
  else str

/-! ## `handle_player_move` (server.c, lines 306-342) -/

/-- The literal `"PLAY_CARD:"`. -/
def PLAY_CARD : List Char := "PLAY_CARD:".toList

/-- The move handler.  Returns the game state after the call. -/
def handle_player_move (game_state : GameState) (player_index : Int)
    (message : List Char) : Option GameState :=
  if strncmp message PLAY_CARD 10 ≠ 0 then some game_state
  else
    let card_choice := atoi (message.drop 10)
    if card_choice < 1 then some game_state
    else
      match game_state.player player_index with
      | none => none
      | some actor =>
        if card_choice > actor.hand_size then some game_state
        else
          let idx := (card_choice - 1).toNat
          match actor.hand[idx]? with
          | none => none
          | some selected_card =>
            let opponent_index := 1 - player_index
            let applied : Option GameState :=
              if strcmp selected_card.type "Attack".toList = 0 then
                game_state.modifyPlayer opponent_index (fun o =>
                  let h := int32 (o.health - selected_card.power)
                  { o with health := if h < 0 then 0 else h })
              else if strcmp selected_card.type "Defense".toList = 0 then
                game_state.modifyPlayer player_index (fun a =>
                  let h := int32 (a.health + selected_card.power)
                  { a with health := if h > 20 then 20 else h })
              else some game_state
            match applied with
            | none => none
            | some gs1 =>
              let played : Card :=
                { selected_card with power := int32 (selected_card.power - 1) }
              gs1.modifyPlayer player_index (fun a =>
                { a with hand := a.hand.set idx played })

/-! ## `accept_players` (server.c, lines 192-263) -/

def deck0 : List Card :=
  [ { name := "Fireball".toList, type := "Attack".toList, power := 7 },
    { name := "Shield".toList, type := "Defense".toList, power := 5 },
    { name := "Lightning Strike".toList, type := "Attack".toList, power := 6 },
    { name := "Heal".toList, type := "Defense".toList, power := 4 },
    { name := "Sword Slash".toList, type := "Attack".toList, power := 5 } ]

def deck1 : List Card :=
  [ { name := "Ice Blast".toList, type := "Attack".toList, power := 7 },
    { name := "Barrier".toList, type := "Defense".toList, power := 5 },
    { name := "Earthquake".toList, type := "Attack".toList, power := 6 },
    { name := "Rejuvenate".toList, type := "Defense".toList, power := 4 },
    { name := "Axe Chop".toList, type := "Attack".toList, power := 5 } ]

/-- The game state left by `accept_players` once both connections are accepted. -/
def accept_players : GameState :=
  { players := ({ health := 20, hand := deck0, hand_size := MAX_CARDS },
                { health := 20, hand := deck1, hand_size := MAX_CARDS }),
    current_turn := 0,
    game_over := 0 }

/-! ## The main loop (server.c, lines 83-129) -/

/-- Outcome of the `recv` call of one iteration: `failed` stands for a return value
`<= 0`, `line buffer` for received bytes, read as a C string. -/
inductive Recv where
  | failed : Recv
  | line (buffer : List Char) : Recv
deriving DecidableEq, Repr

/-- The win check: the `for` loop of lines 114-121, which stops at the first player
whose health is `<= 0`. -/
def check_win (gs : GameState) : GameState :=
  if gs.players.1.health ≤ 0 then { gs with game_over := 1 }
  else if gs.players.2.health ≤ 0 then { gs with game_over := 1 }
  else gs

/-- One iteration of the `while (!game_state.game_over)` loop of `main`. -/
def turn_step (gs : GameState) (r : Recv) : Option GameState :=
  let current_player := gs.current_turn
  match gs.player current_player with
  | none => none
  | some _ =>
    match r with
    | Recv.failed => some { gs with game_over := 1 }
    | Recv.line buffer =>
      match handle_player_move gs current_player (remove_newline buffer) with
      | none => none
      | some gs1 =>
        let gs2 := check_win gs1
        if gs2.game_over = 0 then
          some { gs2 with current_turn := Int.tmod (gs2.current_turn + 1) MAX_PLAYERS }
        else some gs2

/-- The loop of `main` run on a finite sequence of `recv` outcomes: iterations happen
only while `game_over` is `0`. -/
def game_loop (gs : GameState) : List Recv → Option GameState
  | [] => some gs
  | r :: rs =>
    if gs.game_over ≠ 0 then some gs
    else
      match turn_step gs r with
      | none => none
      | some gs1 => game_loop gs1 rs

/-! ## `send_game_state` (server.c, lines 270-303) -/

/-- Text produced by the format `"%s,%s,%d"` for one card. -/
def card_text (c : Card) : List Char :=
  c.name ++ ",".toList ++ c.type ++ ",".toList ++ fmt_d c.power

/-- The `for` loop of lines 286-296 with `k` iterations left, at index `i`. -/
def append_cards (player : Player) : Nat → Nat → List Char → Option (List Char)
  | 0, _, message => some message
  | k + 1, i, message =>
    match player.hand[i]? with
    | none => none
    | some c =>
      let card_info := snprintf 50 (card_text c)
      match strcat BUFFER_SIZE message card_info with
      | none => none
      | some m1 =>
        let m2 : Option (List Char) :=
          if (i : Int) < player.hand_size - 1 then strcat BUFFER_SIZE m1 "|".toList
          else some m1
        match m2 with
        | none => none
        | some m3 => append_cards player k (i + 1) m3

/-- The message that `send_game_state(&game_state->players[player_index], game_state)`
hands to `send`.  The `Player *` argument is represented by its index in `players`. -/
def send_game_state (player_index : Int) (game_state : GameState) :
    Option (List Char) :=
  match game_state.player player_index with
  | none => none
  | some player =>
    let opponent_index := 1 - player_index
    match game_state.player opponent_index with
    | none => none
    | some opponent =>
      let message := snprintf BUFFER_SIZE
        ("YOUR_HEALTH:".toList ++ fmt_d player.health
          ++ ";OPPONENT_HEALTH:".toList ++ fmt_d opponent.health
          ++ ";YOUR_TURN:".toList
          ++ fmt_d (if game_state.current_turn = player_index then 1 else 0)
          ++ ";CARDS:".toList)
      match append_cards player player.hand_size.toNat 0 message with
      | none => none
      | some m => strcat BUFFER_SIZE m "\n".toList

/-! ## Auxiliary definitions used in the statements -/

/-- The move handler called `n` times in a row with the same seat and line. -/
def handle_player_move_n (p : Int) (message : List Char) :
    Nat → GameState → Option GameState
  | 0, gs => some gs
  | n + 1, gs =>
    match handle_player_move gs p message with
    | none => none
    | some gs1 => handle_player_move_n p message n gs1

/-- The initial match with seat 0 brought to health 18. -/
def state_health18 : GameState :=
  { accept_players with
    players := ({ accept_players.players.1 with health := 18 }, accept_players.players.2) }

/-- A receive event carrying the line `PLAY_CARD:<c>` followed by a newline. -/
def play (c : Char) : Recv := Recv.line ("PLAY_CARD:".toList ++ [c, '\n'])

/-- The initial match with the hand of seat 1 replaced by an empty one. -/
def state_other_hand : GameState :=
  { accept_players with
    players := (accept_players.players.1,
                { accept_players.players.2 with hand := [], hand_size := 0 }) }

/-- Bounds that the C types put on a card: `name[20]`, `type[10]`, `int power`. -/
def card_ok (c : Card) : Prop :=
  c.name.length < 20 ∧ c.type.length < 10 ∧ isInt c.power

instance (c : Card) : Decidable (card_ok c) :=
  inferInstanceAs (Decidable (c.name.length < 20 ∧ c.type.length < 10 ∧ isInt c.power))

/-- The state message in the words of the specification: the health of the recipient, the
health of the opponent, the turn flag and the cards of the recipient in hand order, each
as `name,type,power`, joined by `|`, then a newline. -/
def state_message (player opponent : Player) (flag : List Char) : List Char :=
  "YOUR_HEALTH:".toList ++ fmt_d player.health
    ++ ";OPPONENT_HEALTH:".toList ++ fmt_d opponent.health
    ++ ";YOUR_TURN:".toList ++ flag
    ++ ";CARDS:".toList
    ++ List.intercalate "|".toList
        ((player.hand.take player.hand_size.toNat).map card_text)
    ++ "\n".toList

/-- Bounds that the C types put on a player: every hand slot is a `Card` and `health` is
an `int`. -/
def player_ok (pl : Player) : Prop :=
  (∀ c ∈ pl.hand, card_ok c) ∧ isInt pl.health

/-- States reachable from the initial match by iterations of the main loop. -/
inductive Reachable : GameState → Prop where
  | init : Reachable accept_players
  | step (gs gs1 : GameState) (r : Recv) :
      Reachable gs → gs.game_over = 0 → turn_step gs r = some gs1 → Reachable gs1

/-- The all-zero game state left by `memset(&game_state, 0, sizeof(GameState))` in `main`. -/
def zero_state : GameState :=
  let zero_card : Card := { name := [], power := 0, type := [] }
  let zero_player : Player :=
    { health := 0, hand := List.replicate MAX_CARDS zero_card, hand_size := 0 }
  { players := (zero_player, zero_player), current_turn := 0, game_over := 0 }

/-- The body of the `for` loop of `accept_players` for an accepted connection `i`:
health 20, the preset deck of the seat, `hand_size = MAX_CARDS`. -/
def seat_player (i : Nat) (pl : Player) : Player :=
  if i = 0 then { pl with health := 20, hand := deck0, hand_size := MAX_CARDS }
  else { pl with health := 20, hand := deck1, hand_size := MAX_CARDS }

/-- The function `accept_players` run on a sequence of `accept` outcomes (`true` for an
accepted connection, `false` for a failed call, which is retried for the same seat), with
`i` the loop counter.  The result is `none` when the outcomes run out before both seats
are filled: the call is then still waiting. -/
def accept_players_loop : List Bool → Nat → GameState → Option GameState
  | [], i, gs =>
    if i < MAX_PLAYERS then none else some { gs with current_turn := 0, game_over := 0 }
  | ok :: rest, i, gs =>
    if i < MAX_PLAYERS then
      if ok then
        match gs.modifyPlayer i (seat_player i) with
        | none => none
        | some gs1 => accept_players_loop rest (i + 1) gs1
      else accept_players_loop rest i gs
    else some { gs with current_turn := 0, game_over := 0 }

/-- The initial match with Fireball, the first card of seat 0, played down to power -3. -/
def state_negative_power : GameState :=
  { accept_players with
    players := ({ accept_players.players.1 with
                  hand := accept_players.players.1.hand.set 0
                    { name := "Fireball".toList, type := "Attack".toList, power := -3 } },
                accept_players.players.2) }

/-- Whether a text starts with a decimal digit. -/
def starts_with_digit : List Char → Bool
  | [] => false
  | c :: _ => c.isDigit

/-- Whether `atoi` finds a number in the text: after the white space and one optional
sign there is a digit. -/
def has_number (s : List Char) : Bool :=
  match s.dropWhile isspace with
  | '-' :: cs => starts_with_digit cs
  | '+' :: cs => starts_with_digit cs
  | cs => starts_with_digit cs

end Server

/-! # The client (`src/client.c`) -/

namespace Client

open Server (atoi fmt_d snprintf BUFFER_SIZE MAX_CARDS)

/-! ## Data model (client.c, lines 15-34) -/

/-- Card record of the client: `name[20]`, `power`, `type[10]`. -/
structure Card where
  name : List Char
  power : Int
  type : List Char
deriving DecidableEq, Repr

/-- Player record of the client: `health`, `hand[MAX_CARDS]`, `hand_size`. -/
structure Player where
  health : Int
  hand : List Card
  hand_size : Int
deriving DecidableEq, Repr

/-- Game state of the client: its own player, the opponent, `your_turn`. -/
structure GameState where
  player : Player
  opponent : Player
  your_turn : Int
deriving DecidableEq, Repr

/-- A zeroed `Card`. -/
def zero_card : Card := { name := [], power := 0, type := [] }

/-- A zeroed `Player`. -/
def zero_player : Player :=
  { health := 0, hand := List.replicate MAX_CARDS zero_card, hand_size := 0 }

/-- The state after `memset(state, 0, sizeof(*state))`. -/
def zero_state : GameState :=
  { player := zero_player, opponent := zero_player, your_turn := 0 }

/-! ## C library functions used by the client -/

/-- Whether the text starts with the key. -/
def starts_with : List Char → List Char → Bool
  | _, [] => true
  | [], _ :: _ => false
  | a :: as, b :: bs => decide (a = b) && starts_with as bs

/-- The library function `strstr(hay, needle)`: the part of `hay` from the first
occurrence of `needle` on, `none` for a NULL result. -/
def strstr : List Char → List Char → Option (List Char)
  | [], needle => if starts_with [] needle then some [] else none
  | c :: cs, needle =>
    if starts_with (c :: cs) needle then some (c :: cs) else strstr cs needle

/-- The library function `strchr(s, c)`: the part of `s` from the first `c` on. -/
def strchr : List Char → Char → Option (List Char)
  | [], _ => none
  | a :: as, c => if a = c then some (a :: as) else strchr as c

/-- Result of `strncpy(dst, src, n)` followed by the termination of `dst` at index `n`
(or on a zeroed `dst`): the first `n` characters of `src`. -/
def strncpy (src : List Char) (n : Nat) : List Char := src.take n

/-- The library function `strtok_r(str, delim, &saveptr)` for a one-character delimiter:
skip the leading delimiters; `none` (NULL) at the end of the text; otherwise the token up
to the next delimiter, and the text after that delimiter as the new `saveptr`. -/
def strtok_r (s : List Char) (delim : Char) : Option (List Char × List Char) :=
  match s.dropWhile (fun c => c = delim) with
  | [] => none
  | c :: cs =>
    some ((c :: cs).takeWhile (fun x => x ≠ delim),
          ((c :: cs).dropWhile (fun x => x ≠ delim)).drop 1)

/-! ## `trim_newline` (client.c, lines 316-322) -/

def trim_newline (str : List Char) : List Char :=
  if str.length = 0 then str
  else if str.getLast? = some '\n' then str.dropLast
  else str

/-! ## `parse_game_state` (client.c, lines 178-265) -/

/-- The body of the `while` loop of lines 236-260 for one token: split it at the commas
and, when the three parts are present, store the card in slot `card_count`. -/
def parse_card (token : List Char) (hand : List Card) (card_count : Nat) :
    List Card × Nat :=
  let temp := strncpy token 63
  match strtok_r temp ',' with
  | none => (hand, card_count)
  | some (name, save1) =>
    match strtok_r save1 ',' with
    | none => (hand, card_count)
    | some (type, save2) =>
      match strtok_r save2 ',' with
      | none => (hand, card_count)
      | some (power, _) =>
        (hand.set card_count
            { name := strncpy name 19, type := strncpy type 9, power := atoi power },
          card_count + 1)

/-- The `while (token && card_count < MAX_CARDS)` loop; the first argument bounds the
number of iterations (each one consumes at least one character of `saveptr`). -/
def parse_cards : Nat → Option (List Char × List Char) → List Card → Nat → List Card × Nat
  | 0, _, hand, card_count => (hand, card_count)
  | _ + 1, none, hand, card_count => (hand, card_count)
  | fuel + 1, some (token, saveptr), hand, card_count =>
    if card_count < MAX_CARDS then
      let r := parse_card token hand card_count
      parse_cards fuel (strtok_r saveptr '|') r.1 r.2
    else (hand, card_count)

/-- The text copied into `cards_buffer[512]` from the text after `CARDS:`. -/
def cards_buffer (found : List Char) : List Char :=
  match strchr found ';' with
  | none => strncpy found 511
  | some sem_pos =>
    let len := found.length - sem_pos.length
    let len := if len ≥ 512 then 511 else len
    strncpy found len

/-- The parser of the state message.  The previous state is overwritten by the `memset` at
the start. -/
def parse_game_state (msg : List Char) (_state : GameState) : GameState :=
  let state := zero_state
  let state :=
    match strstr msg "YOUR_HEALTH:".toList with
    | some found =>
      { state with player := { state.player with health := atoi (found.drop 12) } }
    | none => state
  let state :=
    match strstr msg "OPPONENT_HEALTH:".toList with
    | some found =>
      { state with opponent := { state.opponent with health := atoi (found.drop 16) } }
    | none => state
  let state :=
    match strstr msg "YOUR_TURN:".toList with
    | some found => { state with your_turn := atoi (found.drop 10) }
    | none => state
  let state :=
    match strstr msg "CARDS:".toList with
    | some found =>
      let buf := cards_buffer (found.drop 6)
      let r := parse_cards (buf.length + 1) (strtok_r buf '|') state.player.hand 0
      { state with player := { state.player with hand := r.1, hand_size := r.2 } }
    | none => state
  state

/-! ## `send_player_choice` (client.c, lines 306-314) -/

/-- The line handed to `send_full_message` for a choice. -/
def send_player_choice (choice : Int) : List Char :=
  snprintf BUFFER_SIZE ("PLAY_CARD:".toList ++ fmt_d choice ++ "\n".toList)

/-! ## The game-over check of `main` (client.c, lines 65-72) -/

/-- What the client does after displaying a state. -/
inductive Outcome where
  | defeated : Outcome
  | won : Outcome
  | playing : Outcome
deriving DecidableEq, Repr

def game_over_check (state : GameState) : Outcome :=
  if state.player.health ≤ 0 then Outcome.defeated
  else if state.opponent.health ≤ 0 then Outcome.won
  else Outcome.playing

/-- One pass of the client loop up to the game-over check: `receive_game_state` on a
received line (`trim_newline`, then `parse_game_state`). -/
def receive_game_state (buffer : List Char) (state : GameState) : GameState :=
  parse_game_state (trim_newline buffer) state

/-- The client state of seat 0 after the first broadcast of the initial match. -/
def first_state : GameState :=
  receive_game_state
    (("YOUR_HEALTH:20;OPPONENT_HEALTH:20;YOUR_TURN:1;CARDS:".toList
      ++ "Fireball,Attack,7|Shield,Defense,5|Lightning Strike,Attack,6|".toList
      ++ "Heal,Defense,4|Sword Slash,Attack,5\n".toList))
    zero_state

end Client

namespace Server

/-! ## Auxiliary definitions for the state round trip -/

/-- The producer-side constraint of the wire format on a card: a non-empty name and type,
free of the delimiters `,` `|` `;` `:` and of the newline. -/
def card_plain (c : Card) : Prop :=
  c.name ≠ [] ∧ c.type ≠ []
    ∧ ∀ ch ∈ c.name ++ c.type, ch ≠ ',' ∧ ch ≠ '|' ∧ ch ≠ ';' ∧ ch ≠ ':' ∧ ch ≠ '\n'

instance (c : Card) : Decidable (card_plain c) :=
  inferInstanceAs (Decidable (c.name ≠ [] ∧ c.type ≠ []
    ∧ ∀ ch ∈ c.name ++ c.type, ch ≠ ',' ∧ ch ≠ '|' ∧ ch ≠ ';' ∧ ch ≠ ':' ∧ ch ≠ '\n'))

instance (pl : Player) : Decidable (player_ok pl) :=
  inferInstanceAs (Decidable ((∀ c ∈ pl.hand, card_ok c) ∧ isInt pl.health))

/-- The card of the server as a card record of the client, field by field. -/
def to_client (c : Card) : Client.Card :=
  { name := c.name, power := c.power, type := c.type }

/-- The cards part of the state message. -/
def cards_text (cs : List Card) : List Char :=
  List.intercalate "|".toList (cs.map card_text)

/-- A reachable match in which seat 0 is to move and seat 1 is at health 2: seat 0 has
played Fireball three times (7, 6, 5) and seat 1 has sent the rejected line `x` in
between. -/
def state_before_final : GameState :=
  (game_loop accept_players
    [play '1', Recv.line "x".toList, play '1', Recv.line "x".toList, play '1',
     Recv.line "x".toList]).getD accept_players

/-- The initial match with card `k` (counted from 0) of seat 0 replaced by `c` and the two
health values set to `h0` and `h1`. -/
def with_card (k : Nat) (c : Card) (h0 h1 : Int) : GameState :=
  { accept_players with
    players := ({ accept_players.players.1 with
                  health := h0, hand := accept_players.players.1.hand.set k c },
                { accept_players.players.2 with health := h1 }) }

/-! ## Lemmas on the library functions -/

theorem char_eq_of_toNat_eq {a b : Char} (h : a.toNat = b.toNat) : a = b := by
  have h2 := congrArg Char.ofNat h
  simpa using h2

/-- For a literal without NUL, `strncmp` over its whole length returns `0` exactly when
the text starts with the literal. -/
theorem strncmp_zero_take (lit : List Char) (hlit : ∀ c ∈ lit, c.toNat ≠ 0) :
    ∀ m : List Char, strncmp m lit lit.length = 0 ↔ m.take lit.length = lit := by
  induction lit with
  | nil => intro m; simp [strncmp]
  | cons b bs ih =>
    intro m
    have hb : b.toNat ≠ 0 := hlit b (by simp)
    have ih2 := ih (fun c hc => hlit c (by simp [hc]))
    cases m with
    | nil =>
      simp only [List.length_cons, strncmp, List.take_nil]
      constructor
      · intro h; omega
      · intro h; simp at h
    | cons a as =>
      simp only [List.length_cons, strncmp, List.take_succ_cons, List.cons.injEq]
      by_cases hab : a = b
      · simp [hab, ih2]
      · simp only [hab, if_false, false_and, iff_false]
        intro h
        apply hab
        apply char_eq_of_toNat_eq
        omega

theorem strncmp_PLAY_CARD (m : List Char) :
    strncmp m PLAY_CARD 10 = 0 ↔ m.take 10 = PLAY_CARD := by
  have h := strncmp_zero_take PLAY_CARD (by decide) m
  simpa [PLAY_CARD] using h

theorem strcmp_self (a : List Char) : strcmp a a = 0 := by
  induction a with
  | nil => simp [strcmp]
  | cons c cs ih => simp [strcmp, ih]

/-! ## Lemmas on `handle_player_move` -/

theorem player_some_index {gs : GameState} {p : Int} {pl : Player}
    (h : gs.player p = some pl) : p = 0 ∨ p = 1 := by
  unfold GameState.player at h
  by_cases h0 : p = 0
  · exact Or.inl h0
  · by_cases h1 : p = 1
    · exact Or.inr h1
    · simp [h0, h1] at h

/-- A line without the `PLAY_CARD:` start, or with an index outside `1..hand_size`, makes
the handler return at one of its two early `return`s. -/
theorem handle_rejected (gs : GameState) (p : Int) (message : List Char) (pl : Player)
    (hpl : gs.player p = some pl)
    (hrej : message.take 10 ≠ PLAY_CARD ∨ atoi (message.drop 10) < 1
      ∨ atoi (message.drop 10) > pl.hand_size) :
    handle_player_move gs p message = some gs := by
  unfold handle_player_move
  by_cases hpre : strncmp message PLAY_CARD 10 = 0
  · have htake := (strncmp_PLAY_CARD message).1 hpre
    rcases hrej with h | h | h
    · exact absurd htake h
    · simp [hpre, h]
    · simp [hpre, hpl, h]
  · simp [hpre]

/-- Result of the handler on a valid move, with both guards discharged. -/
theorem handle_valid (gs : GameState) (p : Int) (message : List Char) (actor : Player)
    (card : Card) (i : Int)
    (hactor : gs.player p = some actor)
    (hpre : message.take 10 = PLAY_CARD)
    (hi : atoi (message.drop 10) = i)
    (hlo : 1 ≤ i) (hhi : i ≤ actor.hand_size)
    (hcard : actor.hand[(i - 1).toNat]? = some card) :
    handle_player_move gs p message =
      (match (if strcmp card.type "Attack".toList = 0 then
              gs.modifyPlayer (1 - p) (fun o =>
                { o with health := if int32 (o.health - card.power) < 0 then 0
                                   else int32 (o.health - card.power) })
            else if strcmp card.type "Defense".toList = 0 then
              gs.modifyPlayer p (fun a =>
                { a with health := if int32 (a.health + card.power) > 20 then 20
                                   else int32 (a.health + card.power) })
            else some gs) with
       | none => none
       | some gs1 => gs1.modifyPlayer p (fun a =>
           { a with hand := a.hand.set (i - 1).toNat { card with power := int32 (card.power - 1) } })) := by
  unfold handle_player_move
  have hpre2 := (strncmp_PLAY_CARD message).2 hpre
  have h1 : ¬ (i < 1) := by omega
  have h2 : ¬ (i > actor.hand_size) := by omega
  simp only [hpre2, hi, hactor, hcard]
  simp [h1, h2]

/-! ## Lemmas on the main loop -/

theorem modifyPlayer_flags {gs gs1 : GameState} {i : Int} {f : Player → Player}
    (h : gs.modifyPlayer i f = some gs1) :
    gs1.current_turn = gs.current_turn ∧ gs1.game_over = gs.game_over := by
  unfold GameState.modifyPlayer at h
  split_ifs at h <;> simp at h <;> subst h <;> exact ⟨rfl, rfl⟩

theorem modifyPlayer_total (gs : GameState) {i : Int} (f : Player → Player)
    (hi : i = 0 ∨ i = 1) : ∃ gs1, gs.modifyPlayer i f = some gs1 := by
  unfold GameState.modifyPlayer
  rcases hi with h | h <;> subst h <;> simp

/-- The handler never writes `current_turn` or `game_over`. -/
theorem handle_flags {gs gs1 : GameState} {p : Int} {message : List Char}
    (h : handle_player_move gs p message = some gs1) :
    gs1.current_turn = gs.current_turn ∧ gs1.game_over = gs.game_over := by
  unfold handle_player_move at h
  split_ifs at h with h0
  · simp at h; subst h; exact ⟨rfl, rfl⟩
  · dsimp only at h
    split_ifs at h with hlt
    · simp at h; subst h; exact ⟨rfl, rfl⟩
    split at h
    · simp at h
    · split_ifs at h with h1
      · simp at h; subst h; exact ⟨rfl, rfl⟩
      · split at h
        · simp at h
        · split at h
          · simp at h
          · rename_i gs0 happ
            have h3 := modifyPlayer_flags h
            have h4 : gs0.current_turn = gs.current_turn ∧ gs0.game_over = gs.game_over := by
              split_ifs at happ
              · exact modifyPlayer_flags happ
              · exact modifyPlayer_flags happ
              · simp at happ; subst happ; exact ⟨rfl, rfl⟩
            exact ⟨h3.1.trans h4.1, h3.2.trans h4.2⟩

/-- A valid move never leaves the arrays: the handler returns a state. -/
theorem handle_valid_total (gs : GameState) (p : Int) (message : List Char)
    (actor : Player) (card : Card) (i : Int)
    (hactor : gs.player p = some actor)
    (hpre : message.take 10 = PLAY_CARD)
    (hi : atoi (message.drop 10) = i)
    (hlo : 1 ≤ i) (hhi : i ≤ actor.hand_size)
    (hcard : actor.hand[(i - 1).toNat]? = some card) :
    ∃ gs1, handle_player_move gs p message = some gs1 := by
  have hp := player_some_index hactor
  have hq : 1 - p = 0 ∨ 1 - p = 1 := by omega
  rw [handle_valid gs p message actor card i hactor hpre hi hlo hhi hcard]
  split_ifs
  · obtain ⟨g, hg⟩ := modifyPlayer_total gs
      (fun o => { o with health := if int32 (o.health - card.power) < 0 then 0
                                   else int32 (o.health - card.power) }) hq
    rw [hg]
    exact modifyPlayer_total g _ hp
  · obtain ⟨g, hg⟩ := modifyPlayer_total gs
      (fun a => { a with health := if int32 (a.health + card.power) > 20 then 20
                                   else int32 (a.health + card.power) }) hp
    rw [hg]
    exact modifyPlayer_total g _ hp
  · exact modifyPlayer_total gs _ hp

/-- With an actor in `{0,1}` and `hand_size` within the hand array, the handler never
leaves the arrays: it returns a state for every line. -/
theorem handle_total (gs : GameState) (p : Int) (message : List Char) (pl : Player)
    (hpl : gs.player p = some pl) (hwf : pl.hand_size ≤ pl.hand.length) :
    ∃ gs1, handle_player_move gs p message = some gs1 := by
  by_cases hrej : message.take 10 ≠ PLAY_CARD ∨ atoi (message.drop 10) < 1
      ∨ atoi (message.drop 10) > pl.hand_size
  · exact ⟨gs, handle_rejected gs p message pl hpl hrej⟩
  · push_neg at hrej
    obtain ⟨hpre, hlo, hhi⟩ := hrej
    have hlen : (atoi (message.drop 10) - 1).toNat < pl.hand.length := by omega
    exact handle_valid_total gs p message pl _ _ hpl hpre rfl hlo hhi
      (List.getElem?_eq_getElem hlen)

theorem check_win_players (gs : GameState) : (check_win gs).players = gs.players := by
  unfold check_win; split_ifs <;> rfl

theorem check_win_turn (gs : GameState) : (check_win gs).current_turn = gs.current_turn := by
  unfold check_win; split_ifs <;> rfl

theorem check_win_over (gs : GameState) (hgo : gs.game_over = 0) :
    (check_win gs).game_over ≠ 0 ↔ (gs.players.1.health ≤ 0 ∨ gs.players.2.health ≤ 0) := by
  unfold check_win
  split_ifs with h1 h2
  · simp [h1]
  · simp [h2]
  · simp [hgo, h1, h2]

/-- Shape of one loop iteration on a received line, in terms of the handler result. -/
theorem turn_step_line (gs gs1 : GameState) (buffer : List Char) (pl : Player)
    (hgo : gs.game_over = 0)
    (hpl : gs.player gs.current_turn = some pl)
    (hmove : handle_player_move gs gs.current_turn (remove_newline buffer) = some gs1) :
    turn_step gs (Recv.line buffer) =
      some (if 0 < gs1.players.1.health ∧ 0 < gs1.players.2.health then
              { gs1 with current_turn := 1 - gs.current_turn }
            else { gs1 with game_over := 1 }) := by
  have hf := handle_flags hmove
  have hp := player_some_index hpl
  unfold turn_step
  simp only [hpl, hmove]
  unfold check_win
  by_cases h1 : gs1.players.1.health ≤ 0
  · have : ¬ (0 < gs1.players.1.health ∧ 0 < gs1.players.2.health) := by omega
    simp [h1, this]
  · by_cases h2 : gs1.players.2.health ≤ 0
    · have : ¬ (0 < gs1.players.1.health ∧ 0 < gs1.players.2.health) := by omega
      simp [h1, h2, this]
    · have h3 : 0 < gs1.players.1.health ∧ 0 < gs1.players.2.health := by omega
      have h4 : gs1.game_over = 0 := by rw [hf.2, hgo]
      have h5 : Int.tmod (gs1.current_turn + 1) MAX_PLAYERS = 1 - gs.current_turn := by
        rw [hf.1]
        rcases hp with h | h <;> rw [h] <;> decide
      simp [h1, h2, h3, h4, h5]

theorem game_loop_over (gs : GameState) (rs : List Recv) (h : gs.game_over ≠ 0) :
    game_loop gs rs = some gs := by
  cases rs with
  | nil => rfl
  | cons r rs => simp [game_loop, h]

/-- A loop iteration that ends with `game_over = 0` has switched the turn. -/
theorem turn_step_alternates {gs gs1 : GameState} {r : Recv}
    (hgo : gs.game_over = 0) (hturn : gs.current_turn = 0 ∨ gs.current_turn = 1)
    (hstep : turn_step gs r = some gs1) (hgo1 : gs1.game_over = 0) :
    gs1.current_turn = 1 - gs.current_turn := by
  have hpl : ∃ pl, gs.player gs.current_turn = some pl := by
    unfold GameState.player
    rcases hturn with h | h <;> rw [h] <;> simp
  obtain ⟨pl, hpl⟩ := hpl
  cases r with
  | failed =>
    simp [turn_step, hpl] at hstep
    subst hstep
    simp at hgo1
  | line buffer =>
    cases hm : handle_player_move gs gs.current_turn (remove_newline buffer) with
    | none => simp [turn_step, hpl, hm] at hstep
    | some g =>
      rw [turn_step_line gs g buffer pl hgo hpl hm] at hstep
      simp at hstep
      subst hstep
      split_ifs at hgo1 ⊢ with hh
      · rfl
      · simp at hgo1

theorem game_loop_alternates (rs : List Recv) :
    ∀ gs gsN : GameState, gs.game_over = 0 → (gs.current_turn = 0 ∨ gs.current_turn = 1) →
      game_loop gs rs = some gsN → gsN.game_over = 0 →
      gsN.current_turn = (gs.current_turn + (rs.length : Int)) % 2 := by
  induction rs with
  | nil =>
    intro gs gsN _ hturn hloop _
    simp [game_loop] at hloop
    subst hloop
    rcases hturn with h | h <;> rw [h] <;> decide
  | cons r rs ih =>
    intro gs gsN hgo hturn hloop hgoN
    simp only [game_loop, hgo] at hloop
    cases hs : turn_step gs r with
    | none => simp [hs] at hloop
    | some g =>
      simp [hs] at hloop
      by_cases hg : g.game_over = 0
      · have ht := turn_step_alternates hgo hturn hs hg
        have ht2 : g.current_turn = 0 ∨ g.current_turn = 1 := by omega
        have := ih g gsN hg ht2 hloop hgoN
        rw [this, ht]
        simp only [List.length_cons]
        push_cast
        omega
      · rw [game_loop_over g rs hg] at hloop
        simp at hloop
        subst hloop
        exact absurd hgoN hg

/-! ## C7: turn advance -/

/-- C7. For every non-terminal match whose `current_turn` is a seat in `{0,1}` and every
valid move of the active seat, the handler returns a state, and when both health values
are `> 0` in it the loop iteration sets `current_turn` to `1 - current_turn`, leaves
`game_over` at `0` and keeps the players as the handler left them.  Hence after any
sequence of received lines that leaves the match non-terminal, `current_turn` is the
starting seat advanced once per line: the active seat alternates strictly. -/
theorem C7_turn_advance (gs : GameState) (buffer : List Char) (actor : Player)
    (card : Card) (i : Int)
    (hgo : gs.game_over = 0)
    (hactor : gs.player gs.current_turn = some actor)
    (hpre : (remove_newline buffer).take 10 = PLAY_CARD)
    (hi : atoi ((remove_newline buffer).drop 10) = i)
    (hlo : 1 ≤ i) (hhi : i ≤ actor.hand_size)
    (hcard : actor.hand[(i - 1).toNat]? = some card) :
    (∃ gs1 : GameState,
        handle_player_move gs gs.current_turn (remove_newline buffer) = some gs1
        ∧ (0 < gs1.players.1.health → 0 < gs1.players.2.health →
            ∃ gs2 : GameState, turn_step gs (Recv.line buffer) = some gs2
              ∧ gs2.current_turn = 1 - gs.current_turn
              ∧ gs2.game_over = 0
              ∧ gs2.players = gs1.players))
    ∧ (∀ (rs : List Recv) (gsN : GameState), game_loop gs rs = some gsN →
        gsN.game_over = 0 → gsN.current_turn = (gs.current_turn + (rs.length : Int)) % 2) := by
  have hp := player_some_index hactor
  constructor
  · obtain ⟨gs1, hm⟩ := handle_valid_total gs gs.current_turn (remove_newline buffer) actor
      card i hactor hpre hi hlo hhi hcard
    refine ⟨gs1, hm, ?_⟩
    intro h1 h2
    have hf := handle_flags hm
    rw [turn_step_line gs gs1 buffer actor hgo hactor hm]
    refine ⟨_, rfl, ?_⟩
    simp [h1, h2, hf.2, hgo]
  · intro rs gsN hloop hgoN
    exact game_loop_alternates rs gs gsN hgo hp hloop hgoN

/-- Witness for C7: seat 0 opens the initial match with `PLAY_CARD:1`. -/
theorem C7_witness :
    (∃ gs1 : GameState,
        handle_player_move accept_players accept_players.current_turn
          (remove_newline "PLAY_CARD:1\n".toList) = some gs1
        ∧ (0 < gs1.players.1.health → 0 < gs1.players.2.health →
            ∃ gs2 : GameState,
              turn_step accept_players (Recv.line "PLAY_CARD:1\n".toList) = some gs2
              ∧ gs2.current_turn = 1 - accept_players.current_turn
              ∧ gs2.game_over = 0
              ∧ gs2.players = gs1.players))
    ∧ (∀ (rs : List Recv) (gsN : GameState), game_loop accept_players rs = some gsN →
        gsN.game_over = 0 →
        gsN.current_turn = (accept_players.current_turn + (rs.length : Int)) % 2) :=
  C7_turn_advance accept_players "PLAY_CARD:1\n".toList accept_players.players.1
    { name := "Fireball".toList, type := "Attack".toList, power := 7 } 1
    (by rfl) (by rfl) (by decide) (by decide) (by decide) (by decide) (by rfl)

/-! ## C8: terminal determination -/

/-- C8. After one loop iteration on any received line (from a non-terminal match whose
active seat is in `{0,1}` and whose `hand_size` is within the hand array), `game_over` is
set if and only if some participant now has health `<= 0`; when it is set `current_turn`
is not advanced, and when it is not set both participants have health `> 0`. -/
theorem C8_terminal_determination (gs : GameState) (buffer : List Char) (pl : Player)
    (hgo : gs.game_over = 0)
    (hpl : gs.player gs.current_turn = some pl)
    (hwf : pl.hand_size ≤ pl.hand.length) :
    ∃ gs1 : GameState, turn_step gs (Recv.line buffer) = some gs1
      ∧ (gs1.game_over ≠ 0 ↔ (gs1.players.1.health ≤ 0 ∨ gs1.players.2.health ≤ 0))
      ∧ (gs1.game_over ≠ 0 → gs1.current_turn = gs.current_turn)
      ∧ (gs1.game_over = 0 → 0 < gs1.players.1.health ∧ 0 < gs1.players.2.health) := by
  obtain ⟨g, hm⟩ := handle_total gs gs.current_turn (remove_newline buffer) pl hpl hwf
  have hf := handle_flags hm
  rw [turn_step_line gs g buffer pl hgo hpl hm]
  refine ⟨_, rfl, ?_⟩
  by_cases hh : 0 < g.players.1.health ∧ 0 < g.players.2.health
  · rw [if_pos hh]
    refine ⟨?_, ?_, ?_⟩
    · simp only [hf.2, hgo]
      constructor
      · intro h; exact absurd rfl h
      · intro h; omega
    · intro h; simp only [hf.2, hgo] at h; exact absurd rfl h
    · intro _; exact hh
  · rw [if_neg hh]
    have hh2 : g.players.1.health ≤ 0 ∨ g.players.2.health ≤ 0 := by omega
    refine ⟨?_, ?_, ?_⟩
    · constructor
      · intro _; exact hh2
      · intro _; exact one_ne_zero
    · intro _; exact hf.1
    · intro h; exact absurd h one_ne_zero

/-- Witness for C8: one iteration on the initial match. -/
theorem C8_witness :
    ∃ gs1 : GameState, turn_step accept_players (Recv.line "PLAY_CARD:1\n".toList) = some gs1
      ∧ (gs1.game_over ≠ 0 ↔ (gs1.players.1.health ≤ 0 ∨ gs1.players.2.health ≤ 0))
      ∧ (gs1.game_over ≠ 0 → gs1.current_turn = accept_players.current_turn)
      ∧ (gs1.game_over = 0 → 0 < gs1.players.1.health ∧ 0 < gs1.players.2.health) :=
  C8_terminal_determination accept_players "PLAY_CARD:1\n".toList accept_players.players.1
    (by rfl) (by rfl) (by decide)

/-! ## C1: the health bound -/

/-- C1 (evaluation of the code at the failing inputs).  Two runs of the main loop from the
initial match, each of 13 valid moves sent by the active seat.  In the first, seat 0 plays
card 5 seven times (its power goes 5, 4, ..., 0, -1) while seat 1 plays cards 1, 1, 2, 2,
2, 4: the last Attack, of power -1, raises the health of seat 1 from 20 to 21 and the
match goes on.  In the second, seat 0 plays card 4 (Defense) seven times while seat 1
plays cards 1, 1, 1, 2, 2, 3: the last play, of power -2, takes seat 0 from 1 to -1 and
ends the match. -/
theorem C1_health_leaves_bounds :
    (game_loop accept_players
        [play '5', play '1', play '5', play '1', play '5', play '2', play '5', play '2',
         play '5', play '2', play '5', play '4', play '5']).map
      (fun s => (s.players.1.health, s.players.2.health, s.current_turn, s.game_over))
      = some (7, 21, 1, 0)
    ∧ (game_loop accept_players
        [play '4', play '1', play '4', play '1', play '4', play '1', play '4', play '2',
         play '4', play '2', play '4', play '3', play '4']).map
      (fun s => (s.players.1.health, s.players.2.health, s.current_turn, s.game_over))
      = some (-1, 20, 0, 1) := by
  decide

/-! ## Lemmas on formatting -/

theorem natDigits_length (k : Nat) : ∀ fuel n : Nat, n < 10 ^ (k + 1) →
    (natDigits fuel n).length ≤ k + 1 := by
  induction k with
  | zero =>
    intro fuel n hn
    cases fuel with
    | zero => simp [natDigits]
    | succ f =>
      have : n < 10 := by simpa using hn
      simp [natDigits, this]
  | succ k ih =>
    intro fuel n hn
    cases fuel with
    | zero => simp [natDigits]
    | succ f =>
      unfold natDigits
      split_ifs with h
      · simp
      · have h2 : n / 10 < 10 ^ (k + 1) := by
          rw [Nat.div_lt_iff_lt_mul (by norm_num)]
          rw [pow_succ] at hn
          exact hn
        have := ih f (n / 10) h2
        simp only [List.length_append, List.length_singleton]
        omega

theorem fmt_d_length (x : Int) (hx : isInt x) : (fmt_d x).length ≤ 11 := by
  unfold isInt INT_MIN INT_MAX at hx
  have h1 : x.natAbs < 10 ^ (9 + 1) := by
    have : x.natAbs ≤ 2147483648 := by omega
    omega
  have h2 := natDigits_length 9 (x.natAbs + 1) x.natAbs h1
  unfold fmt_d fmt_u
  split_ifs
  · simp only [List.length_cons]; omega
  · omega

theorem card_text_length (c : Card) (hc : card_ok c) : (card_text c).length ≤ 41 := by
  obtain ⟨h1, h2, h3⟩ := hc
  have := fmt_d_length c.power h3
  simp only [card_text, List.length_append]
  have e : ",".toList.length = 1 := rfl
  omega

theorem intercalate_single (sep a : List Char) : List.intercalate sep [a] = a := by
  simp [List.intercalate]

theorem intercalate_cons_cons (sep a b : List Char) (l : List (List Char)) :
    List.intercalate sep (a :: b :: l) = a ++ sep ++ List.intercalate sep (b :: l) := by
  simp [List.intercalate]

/-- The card loop, started at index `i` with `k` iterations left where `i + k` is
`hand_size`, appends the `k` cards from index `i` separated by `|`, without truncating a
card and without running past the end of `message`. -/
theorem append_cards_spec (player : Player) : ∀ (k i : Nat) (message : List Char),
    i + k ≤ player.hand.length →
    (k ≠ 0 → ((i + k : Nat) : Int) = player.hand_size) →
    (∀ c ∈ (player.hand.drop i).take k, card_ok c) →
    message.length + 42 * k + 1 < BUFFER_SIZE →
    ∃ out, append_cards player k i message = some out
      ∧ out = message
          ++ List.intercalate "|".toList (((player.hand.drop i).take k).map card_text)
      ∧ out.length ≤ message.length + 42 * k := by
  intro k
  induction k with
  | zero =>
    intro i message _ _ _ _
    exact ⟨message, rfl, by simp [List.intercalate], by simp⟩
  | succ k ih =>
    intro i message hlen hsz hok hfit
    have hi : i < player.hand.length := by omega
    have hdrop : player.hand.drop i = player.hand[i] :: player.hand.drop (i + 1) :=
      List.drop_eq_getElem_cons hi
    have hget : player.hand[i]? = some player.hand[i] := List.getElem?_eq_getElem hi
    have hokc : card_ok player.hand[i] := by
      apply hok
      rw [hdrop, List.take_succ_cons]
      exact List.mem_cons_self _ _
    have hct := card_text_length _ hokc
    have hsn : snprintf 50 (card_text player.hand[i]) = card_text player.hand[i] := by
      unfold snprintf
      exact List.take_of_length_le (by omega)
    have hsz2 := hsz (by omega)
    have hbuf : BUFFER_SIZE = 1024 := rfl
    have hcat1 : strcat BUFFER_SIZE message (card_text player.hand[i])
        = some (message ++ card_text player.hand[i]) := by
      unfold strcat
      rw [if_pos (by omega)]
    have hok2 : ∀ c ∈ (player.hand.drop (i + 1)).take k, card_ok c := by
      intro c hc
      apply hok
      rw [hdrop, List.take_succ_cons]
      exact List.mem_cons_of_mem _ hc
    unfold append_cards
    simp only [hget, hsn, hcat1]
    rw [hdrop, List.take_succ_cons, List.map_cons]
    by_cases hk : k = 0
    · subst hk
      have hcond : ¬ ((i : Int) < player.hand_size - 1) := by omega
      rw [if_neg hcond]
      refine ⟨_, rfl, ?_, ?_⟩
      · simp [append_cards, intercalate_single]
      · simp only [append_cards, List.length_append]
        omega
    · have hcond : (i : Int) < player.hand_size - 1 := by omega
      rw [if_pos hcond]
      have hsep : "|".toList.length = 1 := rfl
      have hcat2 : strcat BUFFER_SIZE (message ++ card_text player.hand[i]) "|".toList
          = some (message ++ card_text player.hand[i] ++ "|".toList) := by
        unfold strcat
        rw [if_pos (by simp only [List.length_append]; omega)]
      simp only [hcat2]
      obtain ⟨out, ho1, ho2, ho3⟩ := ih (i + 1)
        (message ++ card_text player.hand[i] ++ "|".toList)
        (by omega) (fun _ => by rw [← hsz2]; push_cast; omega) hok2
        (by simp only [List.length_append]; omega)
      refine ⟨out, ho1, ?_, ?_⟩
      · rw [ho2]
        have hne : ∃ b l, ((player.hand.drop (i + 1)).take k).map card_text = b :: l := by
          have hl : (((player.hand.drop (i + 1)).take k).map card_text).length = k := by
            simp only [List.length_map, List.length_take, List.length_drop]
            omega
          cases hcs : ((player.hand.drop (i + 1)).take k).map card_text with
          | nil => rw [hcs] at hl; simp at hl; omega
          | cons b l => exact ⟨b, l, rfl⟩
        obtain ⟨b, l, hbl⟩ := hne
        rw [hbl, intercalate_cons_cons]
        simp only [List.append_assoc]
      · simp only [List.length_append] at ho3
        omega

/-! ## C9: format of the state message -/

/-- C9. For every game state and seat `p` in `{0,1}` whose `hand_size` is at most 5, whose
cards in hand have names shorter than 20 and types shorter than 10 characters, and whose
printed integers are C `int` values, the message built by `send_game_state` for `p` is
exactly `YOUR_HEALTH:` health of `p`, `;OPPONENT_HEALTH:` health of `1 - p`,
`;YOUR_TURN:` `1` if `current_turn = p` else `0`, `;CARDS:` the cards of `p` in hand
order, each as `name,type,power`, joined by `|` without a trailing `|`, then a newline;
nothing is truncated. -/
theorem C9_encode_format (gs : GameState) (p : Int) (player opponent : Player)
    (hpl : gs.player p = some player) (hopp : gs.player (1 - p) = some opponent)
    (hsize : player.hand_size ≤ MAX_CARDS)
    (hslots : player.hand.length = MAX_CARDS)
    (hcards : ∀ c ∈ player.hand.take player.hand_size.toNat, card_ok c)
    (hh1 : isInt player.health) (hh2 : isInt opponent.health) :
    send_game_state p gs =
      some ("YOUR_HEALTH:".toList ++ fmt_d player.health
        ++ ";OPPONENT_HEALTH:".toList ++ fmt_d opponent.health
        ++ ";YOUR_TURN:".toList ++ (if gs.current_turn = p then "1".toList else "0".toList)
        ++ ";CARDS:".toList
        ++ List.intercalate "|".toList
            ((player.hand.take player.hand_size.toNat).map card_text)
        ++ "\n".toList) := by
  have hmax : MAX_CARDS = 5 := rfl
  have hbuf : BUFFER_SIZE = 1024 := rfl
  have hl1 := fmt_d_length _ hh1
  have hl2 := fmt_d_length _ hh2
  have hflag : fmt_d (if gs.current_turn = p then 1 else 0)
      = (if gs.current_turn = p then "1".toList else "0".toList) := by
    split_ifs <;> rfl
  have hflen : (if gs.current_turn = p then "1".toList else "0".toList).length = 1 := by
    split_ifs <;> rfl
  have hhead : ("YOUR_HEALTH:".toList ++ fmt_d player.health
        ++ ";OPPONENT_HEALTH:".toList ++ fmt_d opponent.health
        ++ ";YOUR_TURN:".toList ++ (if gs.current_turn = p then "1".toList else "0".toList)
        ++ ";CARDS:".toList).length ≤ 70 := by
    simp only [List.length_append, hflen]
    have e1 : "YOUR_HEALTH:".toList.length = 12 := rfl
    have e2 : ";OPPONENT_HEALTH:".toList.length = 17 := rfl
    have e3 : ";YOUR_TURN:".toList.length = 11 := rfl
    have e4 : ";CARDS:".toList.length = 7 := rfl
    omega
  have hn : player.hand_size.toNat ≤ 5 := by omega
  obtain ⟨out, ho1, ho2, ho3⟩ := append_cards_spec player player.hand_size.toNat 0
    ("YOUR_HEALTH:".toList ++ fmt_d player.health
        ++ ";OPPONENT_HEALTH:".toList ++ fmt_d opponent.health
        ++ ";YOUR_TURN:".toList ++ (if gs.current_turn = p then "1".toList else "0".toList)
        ++ ";CARDS:".toList)
    (by omega) (fun h => by omega) (by simpa using hcards) (by omega)
  unfold send_game_state
  simp only [hpl, hopp, hflag]
  have hsn : ∀ s : List Char, s.length ≤ 70 → snprintf BUFFER_SIZE s = s := by
    intro s hs
    unfold snprintf
    exact List.take_of_length_le (by omega)
  rw [hsn _ hhead, ho1]
  simp only
  unfold strcat
  have e5 : "\n".toList.length = 1 := rfl
  rw [if_pos (by omega), ho2]
  simp only [List.drop_zero]

/-- Witness for C9: the message for seat 0 in the initial match. -/
theorem C9_witness :
    send_game_state 0 accept_players =
      some ("YOUR_HEALTH:20;OPPONENT_HEALTH:20;YOUR_TURN:1;CARDS:".toList
        ++ "Fireball,Attack,7|Shield,Defense,5|Lightning Strike,Attack,6|".toList
        ++ "Heal,Defense,4|Sword Slash,Attack,5\n".toList) :=
  C9_encode_format accept_players 0 accept_players.players.1 accept_players.players.2
    (by rfl) (by rfl) (by decide) (by rfl) (by decide) (by decide) (by decide)

/-! ## C10: hand confidentiality -/

/-- C10. For every seat `p` in `{0,1}` and any two game states that agree on the record of
seat `p` (health, hand, hand size), on the health of the opponent and on `current_turn`,
whatever the hands and hand sizes of the opponent are, `send_game_state` builds the same
message for `p`. -/
theorem C10_hand_confidentiality (p : Int) (gs1 gs2 : GameState)
    (hp : p = 0 ∨ p = 1)
    (hown : gs1.player p = gs2.player p)
    (hopp : (gs1.player (1 - p)).map (fun o => o.health)
      = (gs2.player (1 - p)).map (fun o => o.health))
    (hturn : gs1.current_turn = gs2.current_turn) :
    send_game_state p gs1 = send_game_state p gs2 := by
  rcases hp with h | h
  · subst h
    simp [GameState.player] at hown hopp
    simp [send_game_state, GameState.player, hown, hopp, hturn]
  · subst h
    simp [GameState.player] at hown hopp
    simp [send_game_state, GameState.player, hown, hopp, hturn]

/-- Witness for C10: the initial match and the same match with the hand of seat 1
emptied give seat 0 the same message. -/
theorem C10_witness :
    send_game_state 0 accept_players = send_game_state 0 state_other_hand :=
  C10_hand_confidentiality 0 accept_players state_other_hand
    (by decide) (by rfl) (by rfl) (by rfl)

/-! ## Lemmas on `atoi` and the `%d` conversion -/

theorem digitChar_facts : ∀ d : Nat, d < 10 →
    (digitChar d).isDigit = true ∧ (digitChar d).toNat - 48 = d
      ∧ isspace (digitChar d) = false ∧ digitChar d ≠ '-' ∧ digitChar d ≠ '+' := by
  decide

theorem parseDigits_stop (acc : Nat) (rest : List Char) (h : starts_with_digit rest = false) :
    parseDigits acc rest = acc := by
  cases rest with
  | nil => rfl
  | cons c cs =>
    simp only [starts_with_digit] at h
    simp [parseDigits, h]

/-- Reading back the digits written by `natDigits`. -/
theorem parseDigits_natDigits : ∀ (fuel n acc : Nat) (rest : List Char), n < fuel →
    parseDigits acc (natDigits fuel n ++ rest)
      = parseDigits (acc * 10 ^ (natDigits fuel n).length + n) rest := by
  intro fuel
  induction fuel with
  | zero => intro n acc rest h; omega
  | succ f ih =>
    intro n acc rest h
    unfold natDigits
    split_ifs with h10
    · obtain ⟨hd, hv, _⟩ := digitChar_facts n h10
      simp [parseDigits, hd, hv]
    · have hlt : n / 10 < f := by omega
      rw [List.append_assoc, ih (n / 10) acc _ hlt]
      obtain ⟨hd, hv, _⟩ := digitChar_facts (n % 10) (Nat.mod_lt _ (by norm_num))
      simp only [List.singleton_append, parseDigits, hd, if_true, hv, List.length_append,
        List.length_singleton]
      congr 1
      rw [pow_succ]
      have := Nat.div_add_mod n 10
      nlinarith [Nat.div_add_mod n 10]

/-- The text written by `natDigits` starts with a digit. -/
theorem natDigits_head : ∀ (fuel n : Nat), n < fuel →
    ∃ d tl, d < 10 ∧ natDigits fuel n = digitChar d :: tl := by
  intro fuel
  induction fuel with
  | zero => intro n h; omega
  | succ f ih =>
    intro n h
    unfold natDigits
    split_ifs with h10
    · exact ⟨n, [], h10, rfl⟩
    · obtain ⟨d, tl, hd, he⟩ := ih (n / 10) (by omega)
      exact ⟨d, tl ++ [digitChar (n % 10)], hd, by rw [he]; rfl⟩

theorem parseDigits_fmt_u (n : Nat) (rest : List Char) (h : starts_with_digit rest = false) :
    parseDigits 0 (fmt_u n ++ rest) = n := by
  unfold fmt_u
  rw [parseDigits_natDigits (n + 1) n 0 rest (by omega), parseDigits_stop _ _ h]
  simp

theorem int32_of_isInt (x : Int) (h : isInt x) : int32 x = x := by
  unfold isInt INT_MIN INT_MAX at h
  unfold int32
  omega

theorem int32_isInt (x : Int) : isInt (int32 x) := by
  unfold isInt INT_MIN INT_MAX int32
  omega

/-- Within the range of `int`, `atoi` returns the number found in the text. -/
theorem atoi_of_isInt (s : List Char) (h : isInt (atoi_value s)) : atoi s = atoi_value s := by
  have h2 := h
  unfold isInt INT_MIN INT_MAX at h2
  unfold atoi strtol LONG_MIN LONG_MAX
  rw [if_neg (by omega), if_neg (by omega)]
  exact int32_of_isInt _ h

/-- The number found by `strtol` in a text written with `%d`, whatever non-digit text
follows. -/
theorem atoi_value_fmt_d (x : Int) (rest : List Char) (h : starts_with_digit rest = false) :
    atoi_value (fmt_d x ++ rest) = x := by
  obtain ⟨d, tl, hd, he⟩ := natDigits_head (x.natAbs + 1) x.natAbs (by omega)
  obtain ⟨_, _, hsp, hm, hp⟩ := digitChar_facts d hd
  have hu := parseDigits_fmt_u x.natAbs rest h
  unfold fmt_d
  split_ifs with hx
  · unfold atoi_value
    have : (('-' :: fmt_u x.natAbs) ++ rest).dropWhile isspace
        = '-' :: (fmt_u x.natAbs ++ rest) := by
      simp [List.dropWhile, isspace]
    rw [this]
    simp only [hu]
    omega
  · unfold atoi_value
    have e : fmt_u x.natAbs ++ rest = digitChar d :: (tl ++ rest) := by
      unfold fmt_u; rw [he]; rfl
    have : (fmt_u x.natAbs ++ rest).dropWhile isspace = digitChar d :: (tl ++ rest) := by
      rw [e]; simp [List.dropWhile, hsp]
    rw [this]
    split
    · rename_i cs hc; simp at hc; exact absurd hc.1 hm
    · rename_i cs hc; simp at hc; exact absurd hc.1 hp
    · rw [← e, hu]; omega

/-- Reading with `atoi` a C `int` written with `%d`, whatever non-digit text follows. -/
theorem atoi_fmt_d (x : Int) (rest : List Char) (hx : isInt x)
    (h : starts_with_digit rest = false) :
    atoi (fmt_d x ++ rest) = x := by
  have hv := atoi_value_fmt_d x rest h
  rw [atoi_of_isInt _ (by rw [hv]; exact hx), hv]

theorem atoi_value_no_number (s : List Char) (h : has_number s = false) :
    atoi_value s = 0 := by
  unfold has_number at h
  unfold atoi_value
  split at h <;> simp [parseDigits_stop _ _ h]

theorem atoi_no_number (s : List Char) (h : has_number s = false) : atoi s = 0 := by
  have hv := atoi_value_no_number s h
  rw [atoi_of_isInt _ (by rw [hv]; decide), hv]

theorem modifyPlayer_cases {gs gs1 : GameState} {i : Int} {f : Player → Player}
    (h : gs.modifyPlayer i f = some gs1) :
    (i = 0 ∧ gs1 = { gs with players := (f gs.players.1, gs.players.2) })
      ∨ (i = 1 ∧ gs1 = { gs with players := (gs.players.1, f gs.players.2) }) := by
  unfold GameState.modifyPlayer at h
  split_ifs at h with h0 h1
  · simp at h; exact Or.inl ⟨h0, h.symm⟩
  · simp at h; exact Or.inr ⟨h1, h.symm⟩

/-- Everything a valid move does: the hand of the actor with the played card one point
weaker, the health of one seat updated by the card, and nothing else. -/
theorem handle_valid_result (gs : GameState) (p : Int) (message : List Char)
    (actor opp : Player) (card : Card) (i : Int)
    (hactor : gs.player p = some actor) (hopp : gs.player (1 - p) = some opp)
    (hpre : message.take 10 = PLAY_CARD)
    (hi : atoi (message.drop 10) = i)
    (hlo : 1 ≤ i) (hhi : i ≤ actor.hand_size)
    (hcard : actor.hand[(i - 1).toNat]? = some card) :
    ∃ (gs1 : GameState) (actor1 opp1 : Player),
      handle_player_move gs p message = some gs1
      ∧ gs1.player p = some actor1 ∧ gs1.player (1 - p) = some opp1
      ∧ actor1.hand
          = actor.hand.set (i - 1).toNat { card with power := int32 (card.power - 1) }
      ∧ actor1.hand_size = actor.hand_size
      ∧ opp1.hand = opp.hand ∧ opp1.hand_size = opp.hand_size
      ∧ gs1.current_turn = gs.current_turn ∧ gs1.game_over = gs.game_over
      ∧ (strcmp card.type "Attack".toList = 0 →
          opp1.health = max 0 (int32 (opp.health - card.power))
            ∧ actor1.health = actor.health)
      ∧ (strcmp card.type "Attack".toList ≠ 0 → strcmp card.type "Defense".toList = 0 →
          actor1.health = min 20 (int32 (actor.health + card.power))
            ∧ opp1.health = opp.health)
      ∧ (strcmp card.type "Attack".toList ≠ 0 → strcmp card.type "Defense".toList ≠ 0 →
          actor1.health = actor.health ∧ opp1.health = opp.health) := by
  rw [handle_valid gs p message actor card i hactor hpre hi hlo hhi hcard]
  rcases player_some_index hactor with hp | hp
  · subst hp
    simp only [GameState.player] at hactor hopp
    simp at hactor hopp
    subst hactor; subst hopp
    split_ifs with h1 h2
    · refine ⟨_, _, _, rfl, rfl, rfl, rfl, rfl, rfl, rfl, rfl, rfl, ?_, ?_, ?_⟩
      · intro _; simp; split_ifs <;> omega
      · intro h; exact absurd h1 h
      · intro h; exact absurd h1 h
    · refine ⟨_, _, _, rfl, rfl, rfl, rfl, rfl, rfl, rfl, rfl, rfl, ?_, ?_, ?_⟩
      · intro h; exact absurd h h1
      · intro _ _; simp; split_ifs <;> omega
      · intro _ h; exact absurd h2 h
    · refine ⟨_, _, _, rfl, rfl, rfl, rfl, rfl, rfl, rfl, rfl, rfl, ?_, ?_, ?_⟩
      · intro h; exact absurd h h1
      · intro _ h; exact absurd h h2
      · intro _ _; exact ⟨rfl, rfl⟩
  · subst hp
    simp only [GameState.player] at hactor hopp
    simp at hactor hopp
    subst hactor; subst hopp
    split_ifs with h1 h2
    · refine ⟨_, _, _, rfl, rfl, rfl, rfl, rfl, rfl, rfl, rfl, rfl, ?_, ?_, ?_⟩
      · intro _; simp; split_ifs <;> omega
      · intro h; exact absurd h1 h
      · intro h; exact absurd h1 h
    · refine ⟨_, _, _, rfl, rfl, rfl, rfl, rfl, rfl, rfl, rfl, rfl, ?_, ?_, ?_⟩
      · intro h; exact absurd h h1
      · intro _ _; simp; split_ifs <;> omega
      · intro _ h; exact absurd h2 h
    · refine ⟨_, _, _, rfl, rfl, rfl, rfl, rfl, rfl, rfl, rfl, rfl, ?_, ?_, ?_⟩
      · intro h; exact absurd h h1
      · intro _ h; exact absurd h h2
      · intro _ _; exact ⟨rfl, rfl⟩

theorem opponent_some {gs : GameState} {p : Int} {pl : Player}
    (h : gs.player p = some pl) : ∃ opp, gs.player (1 - p) = some opp := by
  rcases player_some_index h with hp | hp <;> subst hp <;> simp [GameState.player]

/-- A valid move changes the state: the played card loses one point of power. -/
theorem handle_valid_ne (gs : GameState) (p : Int) (message : List Char) (actor : Player)
    (hactor : gs.player p = some actor)
    (hwf : actor.hand_size ≤ actor.hand.length)
    (hpre : message.take 10 = PLAY_CARD)
    (hlo : 1 ≤ atoi (message.drop 10)) (hhi : atoi (message.drop 10) ≤ actor.hand_size) :
    handle_player_move gs p message ≠ some gs := by
  have hlen : (atoi (message.drop 10) - 1).toNat < actor.hand.length := by omega
  obtain ⟨opp, hopp⟩ := opponent_some hactor
  obtain ⟨gs1, actor1, opp1, hm, ha1, _, hhand, _⟩ :=
    handle_valid_result gs p message actor opp _ _ hactor hopp hpre rfl hlo hhi
      (List.getElem?_eq_getElem hlen)
  rw [hm]
  intro h
  simp at h
  subst h
  rw [hactor] at ha1
  simp at ha1
  subst ha1
  have h2 := congrArg (fun l => l[(atoi (message.drop 10) - 1).toNat]?) hhand
  simp only [List.getElem?_set_self hlen, List.getElem?_eq_getElem hlen] at h2
  simp at h2
  have h3 := congrArg Card.power h2
  simp only at h3
  unfold int32 at h3
  omega

theorem remove_newline_line (b : List Char) : remove_newline (b ++ ['\n']) = b := by
  unfold remove_newline
  have h1 : (b ++ ['\n']).length ≠ 0 := by simp
  rw [if_neg h1]
  simp

theorem take_PLAY_CARD (r : List Char) : (PLAY_CARD ++ r).take 10 = PLAY_CARD := by
  have h : PLAY_CARD.length = 10 := rfl
  rw [← h, List.take_left]

theorem drop_PLAY_CARD (r : List Char) : (PLAY_CARD ++ r).drop 10 = r := by
  have h : PLAY_CARD.length = 10 := rfl
  rw [← h, List.drop_left]

/-- The line built by the client for a choice that is a C `int`, once the newline is
removed by the server. -/
theorem remove_newline_choice (c : Int) (hc : isInt c) :
    remove_newline (Client.send_player_choice c) = PLAY_CARD ++ fmt_d c := by
  have hl := fmt_d_length c hc
  have hP : PLAY_CARD.length = 10 := rfl
  have hB : BUFFER_SIZE = 1024 := rfl
  have e : "PLAY_CARD:".toList ++ fmt_d c ++ "\n".toList = (PLAY_CARD ++ fmt_d c) ++ ['\n'] := rfl
  unfold Client.send_player_choice snprintf
  rw [e, List.take_of_length_le (by simp only [List.length_append, List.length_singleton]; omega)]
  exact remove_newline_line _

/-! ## C12: the move line of the client is decoded to the chosen card -/

/-- C12. For every hand size `n` in `1..5` and choice `c` in `1..n`, the line built by
`send_player_choice` (`PLAY_CARD:`, the decimal `c`, a newline), after `remove_newline`,
starts with `PLAY_CARD:`, is read by `atoi` as exactly `c`, and is accepted by
`handle_player_move` against an `n`-card hand: the card played is `hand[c-1]`, whose power
is decremented as a C `int` (it drops by one whenever `power - 1` is within the `int`
range). -/
theorem C12_move_round_trip (gs : GameState) (p : Int) (actor : Player) (n c : Int)
    (hactor : gs.player p = some actor)
    (hslots : actor.hand.length = MAX_CARDS)
    (hn : actor.hand_size = n) (hn1 : 1 ≤ n) (hn5 : n ≤ 5)
    (hc1 : 1 ≤ c) (hcn : c ≤ n) :
    remove_newline (Client.send_player_choice c) = PLAY_CARD ++ fmt_d c
      ∧ (remove_newline (Client.send_player_choice c)).take 10 = PLAY_CARD
      ∧ atoi ((remove_newline (Client.send_player_choice c)).drop 10) = c
      ∧ 1 ≤ c ∧ c ≤ actor.hand_size
      ∧ ∃ (card : Card) (gs1 : GameState) (actor1 : Player),
          actor.hand[(c - 1).toNat]? = some card
          ∧ handle_player_move gs p (remove_newline (Client.send_player_choice c)) = some gs1
          ∧ gs1.player p = some actor1
          ∧ actor1.hand
              = actor.hand.set (c - 1).toNat { card with power := int32 (card.power - 1) }
          ∧ actor1.hand[(c - 1).toNat]? = some { card with power := int32 (card.power - 1) }
          ∧ (isInt (card.power - 1) →
              actor1.hand
                = actor.hand.set (c - 1).toNat { card with power := card.power - 1 }
              ∧ actor1.hand[(c - 1).toNat]? = some { card with power := card.power - 1 }) := by
  have hint : isInt c := by unfold isInt INT_MIN INT_MAX; omega
  have hmsg := remove_newline_choice c hint
  have hmax : MAX_CARDS = 5 := rfl
  have hatoi : atoi ((PLAY_CARD ++ fmt_d c).drop 10) = c := by
    rw [drop_PLAY_CARD]
    have := atoi_fmt_d c [] hint rfl
    simpa using this
  have hlen : (c - 1).toNat < actor.hand.length := by omega
  obtain ⟨opp, hopp⟩ := opponent_some hactor
  rw [hmsg]
  refine ⟨rfl, take_PLAY_CARD _, hatoi, hc1, by omega, ?_⟩
  obtain ⟨gs1, actor1, opp1, hm, ha1, _, hhand, _⟩ :=
    handle_valid_result gs p (PLAY_CARD ++ fmt_d c) actor opp actor.hand[(c - 1).toNat] c
      hactor hopp (take_PLAY_CARD _) hatoi hc1 (by omega) (List.getElem?_eq_getElem hlen)
  have hget : actor1.hand[(c - 1).toNat]?
      = some { actor.hand[(c - 1).toNat] with
               power := int32 (actor.hand[(c - 1).toNat].power - 1) } := by
    rw [hhand, List.getElem?_set_self hlen]
  refine ⟨_, gs1, actor1, List.getElem?_eq_getElem hlen, hm, ha1, hhand, hget, ?_⟩
  intro hr
  rw [← int32_of_isInt _ hr]
  exact ⟨hhand, hget⟩

/-- Witness for C12: choice 3 against the initial 5-card hand of seat 0. -/
theorem C12_witness :
    remove_newline (Client.send_player_choice 3) = PLAY_CARD ++ fmt_d 3
      ∧ (remove_newline (Client.send_player_choice 3)).take 10 = PLAY_CARD
      ∧ atoi ((remove_newline (Client.send_player_choice 3)).drop 10) = 3
      ∧ 1 ≤ (3 : Int) ∧ 3 ≤ accept_players.players.1.hand_size
      ∧ ∃ (card : Card) (gs1 : GameState) (actor1 : Player),
          accept_players.players.1.hand[((3 : Int) - 1).toNat]? = some card
          ∧ handle_player_move accept_players 0
              (remove_newline (Client.send_player_choice 3)) = some gs1
          ∧ gs1.player 0 = some actor1
          ∧ actor1.hand
              = accept_players.players.1.hand.set ((3 : Int) - 1).toNat
                  { card with power := int32 (card.power - 1) }
          ∧ actor1.hand[((3 : Int) - 1).toNat]?
              = some { card with power := int32 (card.power - 1) }
          ∧ (isInt (card.power - 1) →
              actor1.hand
                = accept_players.players.1.hand.set ((3 : Int) - 1).toNat
                    { card with power := card.power - 1 }
              ∧ actor1.hand[((3 : Int) - 1).toNat]?
                = some { card with power := card.power - 1 }) :=
  C12_move_round_trip accept_players 0 accept_players.players.1 5 3
    (by rfl) (by rfl) (by rfl) (by decide) (by decide) (by decide) (by decide)

/-! ## C14: a terminated match is never changed again -/

theorem game_loop_append (rs1 : List Recv) : ∀ (gs gsT : GameState) (rs2 : List Recv),
    game_loop gs rs1 = some gsT → gsT.game_over ≠ 0 →
    game_loop gs (rs1 ++ rs2) = some gsT := by
  induction rs1 with
  | nil =>
    intro gs gsT rs2 h hT
    simp [game_loop] at h
    subst h
    exact game_loop_over gs rs2 hT
  | cons r rs ih =>
    intro gs gsT rs2 h hT
    by_cases hgo : gs.game_over = 0
    · simp only [List.cons_append, game_loop, hgo] at h ⊢
      cases hs : turn_step gs r with
      | none => simp [hs] at h
      | some g =>
        simp only [hs] at h ⊢
        simp at h ⊢
        exact ih g gsT rs2 h hT
    · rw [game_loop_over gs _ hgo] at h
      simp at h
      subst h
      exact game_loop_over gs _ hgo

/-- C14. Once `game_over` is set, the loop of `main` processes no further line: a state
with `game_over` set is returned as it is for every sequence of inputs; a failed `recv`
sets `game_over` and changes nothing else; and when a run of the loop on the inputs `rs1`
ends in a state with `game_over` set (by a health `<= 0` or a failed `recv`), every
continuation `rs2` of the inputs leaves that state (health, hands, `current_turn`,
`game_over`) exactly as it was. -/
theorem C14_terminated_is_absorbing (gs gsT : GameState) (rs1 : List Recv)
    (hrun : game_loop gs rs1 = some gsT) (hT : gsT.game_over ≠ 0) :
    (∀ rs2 : List Recv, game_loop gs (rs1 ++ rs2) = some gsT)
      ∧ (∀ rs2 : List Recv, game_loop gsT rs2 = some gsT)
      ∧ (∀ (g : GameState) (pl : Player), g.player g.current_turn = some pl →
          turn_step g Recv.failed = some { g with game_over := 1 }) := by
  refine ⟨fun rs2 => game_loop_append rs1 gs gsT rs2 hrun hT,
    fun rs2 => game_loop_over gsT rs2 hT, ?_⟩
  intro g pl hpl
  simp [turn_step, hpl]

/-- Witness for C14: the initial match, a failed `recv`, then any further inputs. -/
theorem C14_witness :
    (∀ rs2 : List Recv, game_loop accept_players ([Recv.failed] ++ rs2)
        = some { accept_players with game_over := 1 })
      ∧ (∀ rs2 : List Recv, game_loop { accept_players with game_over := 1 } rs2
        = some { accept_players with game_over := 1 })
      ∧ (∀ (g : GameState) (pl : Player), g.player g.current_turn = some pl →
          turn_step g Recv.failed = some { g with game_over := 1 }) :=
  C14_terminated_is_absorbing accept_players { accept_players with game_over := 1 }
    [Recv.failed] (by rfl) (by decide)

/-! ## C16: the initial match -/

theorem accept_players_loop_done (outcomes : List Bool) (i : Nat) (gs : GameState)
    (hi : ¬ i < MAX_PLAYERS) :
    accept_players_loop outcomes i gs = some { gs with current_turn := 0, game_over := 0 } := by
  cases outcomes <;> simp [accept_players_loop, hi]

/-- Whenever `accept_players` returns, started on the zeroed state, it has built the
initial match. -/
theorem accept_players_loop_result (outcomes : List Bool) :
    ∀ gs : GameState,
      (accept_players_loop outcomes 0 zero_state = some gs → gs = accept_players)
      ∧ (∀ g0 : GameState, g0.players.1 = accept_players.players.1 →
          g0.players.2 = zero_state.players.2 →
          accept_players_loop outcomes 1 g0 = some gs → gs = accept_players) := by
  induction outcomes with
  | nil =>
    intro gs
    constructor
    · intro h; simp [accept_players_loop, MAX_PLAYERS] at h
    · intro g0 _ _ h; simp [accept_players_loop, MAX_PLAYERS] at h
  | cons ok rest ih =>
    intro gs
    have hstep1 : ∀ g0 : GameState, g0.players.1 = accept_players.players.1 →
        g0.players.2 = zero_state.players.2 →
        accept_players_loop (ok :: rest) 1 g0 = some gs → gs = accept_players := by
      intro g0 h1 h2 h
      cases ok with
      | false =>
        simp [accept_players_loop, MAX_PLAYERS] at h
        exact (ih gs).2 g0 h1 h2 h
      | true =>
        simp [accept_players_loop, MAX_PLAYERS, GameState.modifyPlayer] at h
        rw [accept_players_loop_done _ _ _ (by decide)] at h
        simp at h
        subst h
        simp [accept_players, seat_player, h1]
    refine ⟨?_, hstep1⟩
    intro h
    cases ok with
    | false =>
      simp [accept_players_loop, MAX_PLAYERS] at h
      exact (ih gs).1 h
    | true =>
      simp [accept_players_loop, MAX_PLAYERS, GameState.modifyPlayer] at h
      exact (ih gs).2 _ (by simp [seat_player, accept_players]) (by simp [zero_state]) h

/-- C16. Setup (`accept_players` on the zeroed state of `main`) returns as soon as two
`accept` calls have succeeded, whatever failed calls come in between, and whenever it
returns the state is the initial match: both at health 20, both hand sizes 5,
`current_turn = 0`, `game_over = 0`, seat 0 holding Fireball/Attack/7, Shield/Defense/5,
Lightning Strike/Attack/6, Heal/Defense/4, Sword Slash/Attack/5 and seat 1 holding
Ice Blast/Attack/7, Barrier/Defense/5, Earthquake/Attack/6, Rejuvenate/Defense/4,
Axe Chop/Attack/5; the decks are distinct and every card has type Attack or Defense and
power `>= 0`. -/
theorem C16_initial_match :
    (∀ (outcomes : List Bool) (gs : GameState),
        accept_players_loop outcomes 0 zero_state = some gs → gs = accept_players)
      ∧ (∀ a b : Nat, accept_players_loop
          (List.replicate a false ++ [true] ++ List.replicate b false ++ [true]) 0 zero_state
            = some accept_players)
      ∧ accept_players.players.1.health = 20 ∧ accept_players.players.2.health = 20
      ∧ accept_players.players.1.hand_size = 5 ∧ accept_players.players.2.hand_size = 5
      ∧ accept_players.current_turn = 0 ∧ accept_players.game_over = 0
      ∧ accept_players.players.1.hand =
          [ { name := "Fireball".toList, type := "Attack".toList, power := 7 },
            { name := "Shield".toList, type := "Defense".toList, power := 5 },
            { name := "Lightning Strike".toList, type := "Attack".toList, power := 6 },
            { name := "Heal".toList, type := "Defense".toList, power := 4 },
            { name := "Sword Slash".toList, type := "Attack".toList, power := 5 } ]
      ∧ accept_players.players.2.hand =
          [ { name := "Ice Blast".toList, type := "Attack".toList, power := 7 },
            { name := "Barrier".toList, type := "Defense".toList, power := 5 },
            { name := "Earthquake".toList, type := "Attack".toList, power := 6 },
            { name := "Rejuvenate".toList, type := "Defense".toList, power := 4 },
            { name := "Axe Chop".toList, type := "Attack".toList, power := 5 } ]
      ∧ accept_players.players.1.hand ≠ accept_players.players.2.hand
      ∧ (∀ c ∈ accept_players.players.1.hand ++ accept_players.players.2.hand,
          (c.type = "Attack".toList ∨ c.type = "Defense".toList) ∧ 0 ≤ c.power) := by
  refine ⟨fun outcomes gs h => (accept_players_loop_result outcomes gs).1 h, ?_,
    by decide, by decide, by decide, by decide, by decide, by decide, by decide, by decide,
    by decide, by decide⟩
  intro a b
  have hfalse : ∀ (k i : Nat) (rest : List Bool) (g : GameState), i < MAX_PLAYERS →
      accept_players_loop (List.replicate k false ++ rest) i g
        = accept_players_loop rest i g := by
    intro k
    induction k with
    | zero => intro i rest g _; rfl
    | succ k ih =>
      intro i rest g hi
      rw [List.replicate_succ, List.cons_append]
      simp only [accept_players_loop, hi, if_true]
      exact ih i rest g hi
  have e1 : ∀ rest : List Bool, accept_players_loop (true :: rest) 0 zero_state
      = accept_players_loop rest 1
          { zero_state with
            players := (seat_player 0 zero_state.players.1, zero_state.players.2) } :=
    fun _ => rfl
  have e2 : accept_players_loop [true] 1
      { zero_state with
        players := (seat_player 0 zero_state.players.1, zero_state.players.2) }
      = some accept_players := by decide
  rw [List.append_assoc, List.append_assoc, hfalse a 0 _ _ (by decide), List.singleton_append,
    e1, hfalse b 1 _ _ (by decide), e2]

/-! ## Invariants of the reachable states -/

/-- With `hand_size` beyond the hand array a move in range of `hand_size` can index
outside the array; the model has no result there. -/
theorem handle_valid_none (gs : GameState) (p : Int) (message : List Char) (actor : Player)
    (i : Int)
    (hactor : gs.player p = some actor)
    (hpre : message.take 10 = PLAY_CARD)
    (hi : atoi (message.drop 10) = i)
    (hlo : 1 ≤ i) (hhi : i ≤ actor.hand_size)
    (hcard : actor.hand[(i - 1).toNat]? = none) :
    handle_player_move gs p message = none := by
  unfold handle_player_move
  have hpre2 := (strncmp_PLAY_CARD message).2 hpre
  have h1 : ¬ (i < 1) := by omega
  have h2 : ¬ (i > actor.hand_size) := by omega
  simp only [hpre2, hi, hactor, hcard]
  simp [h1, h2]

/-- What any call of the handler keeps: the flags, the hand of the opponent, both hand
sizes, the number of hand slots, and the health of at least one of the two seats. -/
theorem handle_shape (gs gs1 : GameState) (p : Int) (message : List Char)
    (actor opp : Player)
    (hactor : gs.player p = some actor) (hopp : gs.player (1 - p) = some opp)
    (hm : handle_player_move gs p message = some gs1) :
    ∃ actor1 opp1 : Player,
      gs1.player p = some actor1 ∧ gs1.player (1 - p) = some opp1
      ∧ actor1.hand_size = actor.hand_size ∧ actor1.hand.length = actor.hand.length
      ∧ opp1.hand = opp.hand ∧ opp1.hand_size = opp.hand_size
      ∧ (actor1.health = actor.health ∨ opp1.health = opp.health)
      ∧ gs1.current_turn = gs.current_turn ∧ gs1.game_over = gs.game_over := by
  by_cases hrej : message.take 10 ≠ PLAY_CARD ∨ atoi (message.drop 10) < 1
      ∨ atoi (message.drop 10) > actor.hand_size
  · rw [handle_rejected gs p message actor hactor hrej] at hm
    simp at hm
    subst hm
    exact ⟨actor, opp, hactor, hopp, rfl, rfl, rfl, rfl, Or.inl rfl, rfl, rfl⟩
  · push_neg at hrej
    obtain ⟨hpre, hlo, hhi⟩ := hrej
    cases hc : actor.hand[(atoi (message.drop 10) - 1).toNat]? with
    | none =>
      rw [handle_valid_none gs p message actor _ hactor hpre rfl hlo hhi hc] at hm
      simp at hm
    | some card =>
      obtain ⟨g, actor1, opp1, hg, ha1, ho1, hhand, hsz, hoh, hos, hct, hgo, hA, hD, hN⟩ :=
        handle_valid_result gs p message actor opp card _ hactor hopp hpre rfl hlo hhi hc
      rw [hg] at hm
      simp at hm
      subst hm
      refine ⟨actor1, opp1, ha1, ho1, hsz, ?_, hoh, hos, ?_, hct, hgo⟩
      · rw [hhand, List.length_set]
      · by_cases h1 : strcmp card.type "Attack".toList = 0
        · exact Or.inl (hA h1).2
        · by_cases h2 : strcmp card.type "Defense".toList = 0
          · exact Or.inr (hD h1 h2).2
          · exact Or.inl (hN h1 h2).1

/-- The invariant carried by the reachable states. -/
theorem reachable_inv (gs : GameState) (h : Reachable gs) :
    (gs.current_turn = 0 ∨ gs.current_turn = 1)
      ∧ gs.players.1.hand_size = 5 ∧ gs.players.1.hand.length = 5
      ∧ gs.players.2.hand_size = 5 ∧ gs.players.2.hand.length = 5
      ∧ (gs.game_over = 0 → 0 < gs.players.1.health ∧ 0 < gs.players.2.health)
      ∧ ¬ (gs.players.1.health ≤ 0 ∧ gs.players.2.health ≤ 0) := by
  induction h with
  | init => decide
  | step gs gs1 r _ hgo hstep ih =>
    obtain ⟨hturn, hs1, hl1, hs2, hl2, hpos, _⟩ := ih
    obtain ⟨hp1, hp2⟩ := hpos hgo
    have hpl : ∃ pl, gs.player gs.current_turn = some pl := by
      unfold GameState.player
      rcases hturn with h | h <;> rw [h] <;> simp
    obtain ⟨pl, hpl⟩ := hpl
    cases r with
    | failed =>
      simp [turn_step, hpl] at hstep
      subst hstep
      refine ⟨hturn, hs1, hl1, hs2, hl2, ?_, ?_⟩
      · intro h; simp at h
      · simp only; omega
    | line buffer =>
      cases hm : handle_player_move gs gs.current_turn (remove_newline buffer) with
      | none => simp [turn_step, hpl, hm] at hstep
      | some g =>
        rw [turn_step_line gs g buffer pl hgo hpl hm] at hstep
        simp only [Option.some.injEq] at hstep
        obtain ⟨opp, hopp⟩ := opponent_some hpl
        obtain ⟨a1, o1, ha1, ho1, hsz, hlen, hoh, hos, hhealth, hct, hgov⟩ :=
          handle_shape gs g gs.current_turn (remove_newline buffer) pl opp hpl hopp hm
        have key : g.players.1.hand_size = 5 ∧ g.players.1.hand.length = 5
            ∧ g.players.2.hand_size = 5 ∧ g.players.2.hand.length = 5
            ∧ ¬ (g.players.1.health ≤ 0 ∧ g.players.2.health ≤ 0) := by
          rcases hturn with h | h
          · rw [h] at hpl hopp ha1 ho1
            simp [GameState.player] at hpl hopp ha1 ho1
            subst hpl; subst hopp; subst ha1; subst ho1
            refine ⟨by omega, by omega, by omega, by rw [hoh]; exact hl2, ?_⟩
            omega
          · rw [h] at hpl hopp ha1 ho1
            simp [GameState.player] at hpl hopp ha1 ho1
            subst hpl; subst hopp; subst ha1; subst ho1
            refine ⟨by omega, by rw [hoh]; exact hl1, by omega, by omega, ?_⟩
            omega
        obtain ⟨k1, k2, k3, k4, k5⟩ := key
        subst hstep
        split_ifs with hh
        · refine ⟨by simp only; omega, k1, k2, k3, k4, fun _ => hh, k5⟩
        · refine ⟨by simp only; omega, k1, k2, k3, k4, ?_, k5⟩
          intro h; simp at h

/-- One loop iteration changes the health of at most one seat. -/
theorem turn_step_one_health (gs gs1 : GameState) (r : Recv)
    (hgo : gs.game_over = 0) (hstep : turn_step gs r = some gs1) :
    gs1.players.1.health = gs.players.1.health
      ∨ gs1.players.2.health = gs.players.2.health := by
  cases hpl : gs.player gs.current_turn with
  | none => simp [turn_step, hpl] at hstep
  | some pl =>
    cases r with
    | failed =>
      simp [turn_step, hpl] at hstep
      subst hstep
      exact Or.inl rfl
    | line buffer =>
      cases hm : handle_player_move gs gs.current_turn (remove_newline buffer) with
      | none => simp [turn_step, hpl, hm] at hstep
      | some g =>
        rw [turn_step_line gs g buffer pl hgo hpl hm] at hstep
        simp only [Option.some.injEq] at hstep
        obtain ⟨opp, hopp⟩ := opponent_some hpl
        obtain ⟨a1, o1, ha1, ho1, _, _, _, _, hhealth, _, _⟩ :=
          handle_shape gs g gs.current_turn (remove_newline buffer) pl opp hpl hopp hm
        have key : g.players.1.health = gs.players.1.health
            ∨ g.players.2.health = gs.players.2.health := by
          rcases player_some_index hpl with h | h
          · rw [h] at hpl hopp ha1 ho1
            simp [GameState.player] at hpl hopp ha1 ho1
            subst hpl; subst hopp; subst ha1; subst ho1
            exact hhealth
          · rw [h] at hpl hopp ha1 ho1
            simp [GameState.player] at hpl hopp ha1 ho1
            subst hpl; subst hopp; subst ha1; subst ho1
            exact hhealth.symm
        subst hstep
        split_ifs <;> exact key

/-! ## C17: the two seats are never both at zero -/

/-- C17. In every state reachable from the initial match through the loop of `main`, at
most one participant has health `<= 0`: while `game_over` is `0` (the only states in which
a line is processed) both health values are `> 0`, and one loop iteration changes the
health of at most one participant. -/
theorem C17_no_simultaneous_zero (gs : GameState) (h : Reachable gs) :
    ¬ (gs.players.1.health ≤ 0 ∧ gs.players.2.health ≤ 0)
      ∧ (gs.game_over = 0 → 0 < gs.players.1.health ∧ 0 < gs.players.2.health)
      ∧ (∀ (r : Recv) (gs1 : GameState), gs.game_over = 0 → turn_step gs r = some gs1 →
          gs1.players.1.health = gs.players.1.health
            ∨ gs1.players.2.health = gs.players.2.health) := by
  obtain ⟨_, _, _, _, _, hpos, hboth⟩ := reachable_inv gs h
  exact ⟨hboth, hpos, fun r gs1 hgo hstep => turn_step_one_health gs gs1 r hgo hstep⟩

/-- Witness for C17: the state reached from the initial match by the rejected line
`hello`, which only switches the turn. -/
theorem C17_witness :
    ¬ (({ accept_players with current_turn := 1 } : GameState).players.1.health ≤ 0
        ∧ ({ accept_players with current_turn := 1 } : GameState).players.2.health ≤ 0)
      ∧ (({ accept_players with current_turn := 1 } : GameState).game_over = 0 →
          0 < ({ accept_players with current_turn := 1 } : GameState).players.1.health
            ∧ 0 < ({ accept_players with current_turn := 1 } : GameState).players.2.health)
      ∧ (∀ (r : Recv) (gs1 : GameState),
          ({ accept_players with current_turn := 1 } : GameState).game_over = 0 →
          turn_step { accept_players with current_turn := 1 } r = some gs1 →
          gs1.players.1.health
              = ({ accept_players with current_turn := 1 } : GameState).players.1.health
            ∨ gs1.players.2.health
              = ({ accept_players with current_turn := 1 } : GameState).players.2.health) :=
  C17_no_simultaneous_zero { accept_players with current_turn := 1 }
    (Reachable.step accept_players _ (Recv.line "hello".toList) Reachable.init
      (by rfl) (by decide))

/-! ## The state message in closed form -/

/-- For a recipient whose record fits the C types, `send_game_state` builds exactly the
message of the specification, with nothing truncated. -/
theorem send_game_state_msg (gs : GameState) (p : Int) (player opponent : Player)
    (hpl : gs.player p = some player) (hopp : gs.player (1 - p) = some opponent)
    (hsize : player.hand_size ≤ MAX_CARDS)
    (hslots : player.hand.length = MAX_CARDS)
    (hcards : ∀ c ∈ player.hand.take player.hand_size.toNat, card_ok c)
    (hh1 : isInt player.health) (hh2 : isInt opponent.health) :
    send_game_state p gs =
      some (state_message player opponent
        (if gs.current_turn = p then "1".toList else "0".toList)) := by
  unfold state_message
  have hmax : MAX_CARDS = 5 := rfl
  have hbuf : BUFFER_SIZE = 1024 := rfl
  have hl1 := fmt_d_length _ hh1
  have hl2 := fmt_d_length _ hh2
  have hflag : fmt_d (if gs.current_turn = p then 1 else 0)
      = (if gs.current_turn = p then "1".toList else "0".toList) := by
    split_ifs <;> rfl
  have hflen : (if gs.current_turn = p then "1".toList else "0".toList).length = 1 := by
    split_ifs <;> rfl
  have hhead : ("YOUR_HEALTH:".toList ++ fmt_d player.health
        ++ ";OPPONENT_HEALTH:".toList ++ fmt_d opponent.health
        ++ ";YOUR_TURN:".toList ++ (if gs.current_turn = p then "1".toList else "0".toList)
        ++ ";CARDS:".toList).length ≤ 70 := by
    simp only [List.length_append, hflen]
    have e1 : "YOUR_HEALTH:".toList.length = 12 := rfl
    have e2 : ";OPPONENT_HEALTH:".toList.length = 17 := rfl
    have e3 : ";YOUR_TURN:".toList.length = 11 := rfl
    have e4 : ";CARDS:".toList.length = 7 := rfl
    omega
  have hn : player.hand_size.toNat ≤ 5 := by omega
  obtain ⟨out, ho1, ho2, ho3⟩ := append_cards_spec player player.hand_size.toNat 0
    ("YOUR_HEALTH:".toList ++ fmt_d player.health
        ++ ";OPPONENT_HEALTH:".toList ++ fmt_d opponent.health
        ++ ";YOUR_TURN:".toList ++ (if gs.current_turn = p then "1".toList else "0".toList)
        ++ ";CARDS:".toList)
    (by omega) (fun h => by omega) (by simpa using hcards) (by omega)
  unfold send_game_state
  simp only [hpl, hopp, hflag]
  have hsn : ∀ s : List Char, s.length ≤ 70 → snprintf BUFFER_SIZE s = s := by
    intro s hs
    unfold snprintf
    exact List.take_of_length_le (by omega)
  rw [hsn _ hhead, ho1]
  simp only
  unfold strcat
  have e5 : "\n".toList.length = 1 := rfl
  rw [if_pos (by omega), ho2]
  simp only [List.drop_zero]

/-! ## C13: exactly one active seat -/

/-- C13. In every state reachable from the initial match through the loop of `main`,
`current_turn` is 0 or 1; hence (for player records within the C types) the two messages
built by `send_game_state` for seats 0 and 1 are the state messages with the turn flags
`1` and `0`, or `0` and `1`: exactly one of them carries `YOUR_TURN:1`. -/
theorem C13_exactly_one_active_seat (gs : GameState) (h : Reachable gs) :
    (gs.current_turn = 0 ∨ gs.current_turn = 1)
      ∧ (player_ok gs.players.1 → player_ok gs.players.2 →
          ∃ f0 f1 : List Char,
            send_game_state 0 gs = some (state_message gs.players.1 gs.players.2 f0)
            ∧ send_game_state 1 gs = some (state_message gs.players.2 gs.players.1 f1)
            ∧ ((f0 = "1".toList ∧ f1 = "0".toList) ∨ (f0 = "0".toList ∧ f1 = "1".toList))) := by
  obtain ⟨hturn, hs1, hl1, hs2, hl2, _, _⟩ := reachable_inv gs h
  refine ⟨hturn, ?_⟩
  intro hok1 hok2
  have hmax : MAX_CARDS = 5 := rfl
  have m0 := send_game_state_msg gs 0 gs.players.1 gs.players.2 rfl rfl
    (by rw [hs1]; decide) (by rw [hl1, hmax])
    (fun c hc => hok1.1 c (List.mem_of_mem_take hc)) hok1.2 hok2.2
  have m1 := send_game_state_msg gs 1 gs.players.2 gs.players.1 rfl rfl
    (by rw [hs2]; decide) (by rw [hl2, hmax])
    (fun c hc => hok2.1 c (List.mem_of_mem_take hc)) hok2.2 hok1.2
  refine ⟨_, _, m0, m1, ?_⟩
  rcases hturn with h0 | h1
  · left; rw [h0]; exact ⟨rfl, rfl⟩
  · right; rw [h1]; exact ⟨rfl, rfl⟩

/-- Witness for C13: the initial match. -/
theorem C13_witness :
    (accept_players.current_turn = 0 ∨ accept_players.current_turn = 1)
      ∧ (player_ok accept_players.players.1 → player_ok accept_players.players.2 →
          ∃ f0 f1 : List Char,
            send_game_state 0 accept_players
              = some (state_message accept_players.players.1 accept_players.players.2 f0)
            ∧ send_game_state 1 accept_players
              = some (state_message accept_players.players.2 accept_players.players.1 f1)
            ∧ ((f0 = "1".toList ∧ f1 = "0".toList) ∨ (f0 = "0".toList ∧ f1 = "1".toList))) :=
  C13_exactly_one_active_seat accept_players Reachable.init

/-! ## Lemmas on the client parser -/

theorem natDigits_isDigit : ∀ (fuel n : Nat) (c : Char), c ∈ natDigits fuel n →
    c.isDigit = true := by
  intro fuel
  induction fuel with
  | zero => intro n c h; simp [natDigits] at h
  | succ f ih =>
    intro n c h
    unfold natDigits at h
    split_ifs at h with h10
    · simp at h; subst h; exact (digitChar_facts n h10).1
    · simp at h
      rcases h with h | h
      · exact ih _ _ h
      · subst h; exact (digitChar_facts (n % 10) (Nat.mod_lt _ (by norm_num))).1

/-- The text written by `%d` consists of digits and possibly a minus sign. -/
theorem fmt_d_chars (x : Int) (c : Char) (h : c ∈ fmt_d x) : c = '-' ∨ c.isDigit = true := by
  unfold fmt_d fmt_u at h
  split_ifs at h
  · simp at h
    rcases h with h | h
    · exact Or.inl h
    · exact Or.inr (natDigits_isDigit _ _ _ h)
  · exact Or.inr (natDigits_isDigit _ _ _ h)

theorem fmt_d_ne (x : Int) (k : Char) (hk1 : k ≠ '-') (hk2 : k.isDigit = false) :
    ∀ c ∈ fmt_d x, c ≠ k := by
  intro c hc hck
  subst hck
  rcases fmt_d_chars x c hc with h | h
  · exact hk1 h
  · rw [h] at hk2; simp at hk2

theorem fmt_d_ne_nil (x : Int) : fmt_d x ≠ [] := by
  obtain ⟨d, tl, _, he⟩ := natDigits_head (x.natAbs + 1) x.natAbs (by omega)
  unfold fmt_d fmt_u
  split_ifs
  · simp
  · rw [he]; simp

theorem starts_with_append (key rest : List Char) : Client.starts_with (key ++ rest) key = true := by
  induction key with
  | nil => cases rest <;> rfl
  | cons k ks ih => simp [Client.starts_with, ih]

theorem strstr_here (key rest : List Char) :
    Client.strstr (key ++ rest) key = some (key ++ rest) := by
  have h := starts_with_append key rest
  cases hk : key ++ rest with
  | nil => rw [hk] at h; simp [Client.strstr, h]
  | cons c cs => rw [hk] at h; simp [Client.strstr, h]

/-- A stretch of text without the first character of the key is skipped by `Client.strstr`. -/
theorem strstr_skip (k : Char) (ks rest : List Char) :
    ∀ pre : List Char, (∀ c ∈ pre, c ≠ k) →
      Client.strstr (pre ++ rest) (k :: ks) = Client.strstr rest (k :: ks) := by
  intro pre
  induction pre with
  | nil => intro _; rfl
  | cons a as ih =>
    intro h
    have ha : a ≠ k := h a (by simp)
    have := ih (fun c hc => h c (by simp [hc]))
    simp [Client.strstr, Client.starts_with, ha, this]

theorem trim_newline_line (b : List Char) : Client.trim_newline (b ++ ['\n']) = b := by
  unfold Client.trim_newline
  have h1 : (b ++ ['\n']).length ≠ 0 := by simp
  rw [if_neg h1]
  simp

theorem strstr_key1 (R : List Char) :
    Client.strstr ("YOUR_HEALTH:".toList ++ R) "YOUR_HEALTH:".toList
      = some ("YOUR_HEALTH:".toList ++ R) := strstr_here _ _

theorem strstr_key2 (a : Int) (R : List Char) :
    Client.strstr ("YOUR_HEALTH:".toList ++ fmt_d a ++ ";OPPONENT_HEALTH:".toList ++ R)
        "OPPONENT_HEALTH:".toList
      = some ("OPPONENT_HEALTH:".toList ++ R) := by
  have e : "YOUR_HEALTH:".toList ++ fmt_d a ++ ";OPPONENT_HEALTH:".toList ++ R
      = ['Y'] ++ ('O' :: ("UR_HEALTH:".toList ++ fmt_d a ++ [';']
          ++ ("OPPONENT_HEALTH:".toList ++ R))) := by
    simp
  have k : "OPPONENT_HEALTH:".toList = 'O' :: "PPONENT_HEALTH:".toList := rfl
  rw [e, k, strstr_skip 'O' _ _ ['Y'] (by decide)]
  have step : ∀ T : List Char, Client.strstr ('O' :: ("UR_HEALTH:".toList ++ T))
      ('O' :: "PPONENT_HEALTH:".toList) = Client.strstr ("UR_HEALTH:".toList ++ T)
      ('O' :: "PPONENT_HEALTH:".toList) := by
    intro T
    simp [Client.strstr, Client.starts_with]
  rw [List.append_assoc, List.append_assoc, step, strstr_skip 'O' _ _ "UR_HEALTH:".toList (by decide),
    strstr_skip 'O' _ _ (fmt_d a) (fmt_d_ne a 'O' (by decide) (by decide)),
    strstr_skip 'O' _ _ [';'] (by decide)]
  exact strstr_here ('O' :: "PPONENT_HEALTH:".toList) R

theorem strstr_key3 (a b : Int) (R : List Char) :
    Client.strstr ("YOUR_HEALTH:".toList ++ fmt_d a ++ ";OPPONENT_HEALTH:".toList ++ fmt_d b
        ++ ";YOUR_TURN:".toList ++ R) "YOUR_TURN:".toList
      = some ("YOUR_TURN:".toList ++ R) := by
  have e : "YOUR_HEALTH:".toList ++ fmt_d a ++ ";OPPONENT_HEALTH:".toList ++ fmt_d b
        ++ ";YOUR_TURN:".toList ++ R
      = "YOUR_HEALTH:".toList ++ (fmt_d a ++ (";OPPONENT_HEALTH:".toList ++ (fmt_d b
          ++ ([';'] ++ ("YOUR_TURN:".toList ++ R))))) := by
    simp
  have k : "YOUR_TURN:".toList = 'Y' :: "OUR_TURN:".toList := rfl
  have step : ∀ T : List Char, Client.strstr ("YOUR_HEALTH:".toList ++ T)
      ('Y' :: "OUR_TURN:".toList) = Client.strstr ("OUR_HEALTH:".toList ++ T)
      ('Y' :: "OUR_TURN:".toList) := by
    intro T
    simp [Client.strstr, Client.starts_with]
  rw [e, k, step, strstr_skip 'Y' _ _ "OUR_HEALTH:".toList (by decide),
    strstr_skip 'Y' _ _ (fmt_d a) (fmt_d_ne a 'Y' (by decide) (by decide)),
    strstr_skip 'Y' _ _ ";OPPONENT_HEALTH:".toList (by decide),
    strstr_skip 'Y' _ _ (fmt_d b) (fmt_d_ne b 'Y' (by decide) (by decide)),
    strstr_skip 'Y' _ _ [';'] (by decide)]
  exact strstr_here ('Y' :: "OUR_TURN:".toList) R

theorem strstr_key4 (a b : Int) (flag R : List Char) (hflag : ∀ c ∈ flag, c ≠ 'C') :
    Client.strstr ("YOUR_HEALTH:".toList ++ fmt_d a ++ ";OPPONENT_HEALTH:".toList ++ fmt_d b
        ++ ";YOUR_TURN:".toList ++ flag ++ ";CARDS:".toList ++ R) "CARDS:".toList
      = some ("CARDS:".toList ++ R) := by
  have e : "YOUR_HEALTH:".toList ++ fmt_d a ++ ";OPPONENT_HEALTH:".toList ++ fmt_d b
        ++ ";YOUR_TURN:".toList ++ flag ++ ";CARDS:".toList ++ R
      = "YOUR_HEALTH:".toList ++ (fmt_d a ++ (";OPPONENT_HEALTH:".toList ++ (fmt_d b
          ++ (";YOUR_TURN:".toList ++ (flag ++ ([';'] ++ ("CARDS:".toList ++ R))))))) := by
    simp
  have k : "CARDS:".toList = 'C' :: "ARDS:".toList := rfl
  rw [e, k, strstr_skip 'C' _ _ "YOUR_HEALTH:".toList (by decide),
    strstr_skip 'C' _ _ (fmt_d a) (fmt_d_ne a 'C' (by decide) (by decide)),
    strstr_skip 'C' _ _ ";OPPONENT_HEALTH:".toList (by decide),
    strstr_skip 'C' _ _ (fmt_d b) (fmt_d_ne b 'C' (by decide) (by decide)),
    strstr_skip 'C' _ _ ";YOUR_TURN:".toList (by decide),
    strstr_skip 'C' _ _ flag hflag,
    strstr_skip 'C' _ _ [';'] (by decide)]
  exact strstr_here ('C' :: "ARDS:".toList) R

/-- The fields written by `Client.parse_game_state`, one per key; the previous state plays no
part. -/
theorem parse_fields (msg : List Char) (st : Client.GameState) :
    (Client.parse_game_state msg st).player.health
        = (match Client.strstr msg "YOUR_HEALTH:".toList with
           | some found => atoi (found.drop 12)
           | none => 0)
      ∧ (Client.parse_game_state msg st).opponent.health
        = (match Client.strstr msg "OPPONENT_HEALTH:".toList with
           | some found => atoi (found.drop 16)
           | none => 0)
      ∧ (Client.parse_game_state msg st).your_turn
        = (match Client.strstr msg "YOUR_TURN:".toList with
           | some found => atoi (found.drop 10)
           | none => 0)
      ∧ ((Client.parse_game_state msg st).player.hand, (Client.parse_game_state msg st).player.hand_size)
        = (match Client.strstr msg "CARDS:".toList with
           | some found =>
             let r := Client.parse_cards ((Client.cards_buffer (found.drop 6)).length + 1)
               (Client.strtok_r (Client.cards_buffer (found.drop 6)) '|') Client.zero_player.hand 0
             (r.1, (r.2 : Int))
           | none => (Client.zero_player.hand, 0))
      ∧ (Client.parse_game_state msg st).opponent.hand = Client.zero_player.hand
      ∧ (Client.parse_game_state msg st).opponent.hand_size = 0 := by
  unfold Client.parse_game_state
  cases Client.strstr msg "YOUR_HEALTH:".toList <;> cases Client.strstr msg "OPPONENT_HEALTH:".toList <;>
    cases Client.strstr msg "YOUR_TURN:".toList <;> cases Client.strstr msg "CARDS:".toList <;>
    exact ⟨rfl, rfl, rfl, rfl, rfl, rfl⟩

/-- Decoding of the three numbers in the head of a state message, whatever text `R`
follows the turn flag. -/
theorem parse_header (a b t : Int) (R : List Char) (st : Client.GameState)
    (ha : isInt a) (hb : isInt b) (ht : isInt t) :
    (Client.parse_game_state ("YOUR_HEALTH:".toList ++ fmt_d a ++ ";OPPONENT_HEALTH:".toList
        ++ fmt_d b ++ ";YOUR_TURN:".toList ++ fmt_d t ++ ';' :: R) st).player.health = a
      ∧ (Client.parse_game_state ("YOUR_HEALTH:".toList ++ fmt_d a ++ ";OPPONENT_HEALTH:".toList
        ++ fmt_d b ++ ";YOUR_TURN:".toList ++ fmt_d t ++ ';' :: R) st).opponent.health = b
      ∧ (Client.parse_game_state ("YOUR_HEALTH:".toList ++ fmt_d a ++ ";OPPONENT_HEALTH:".toList
        ++ fmt_d b ++ ";YOUR_TURN:".toList ++ fmt_d t ++ ';' :: R) st).your_turn = t := by
  obtain ⟨f1, f2, f3, _⟩ := parse_fields ("YOUR_HEALTH:".toList ++ fmt_d a
    ++ ";OPPONENT_HEALTH:".toList ++ fmt_d b ++ ";YOUR_TURN:".toList ++ fmt_d t ++ ';' :: R) st
  have e1 : "YOUR_HEALTH:".toList ++ fmt_d a ++ ";OPPONENT_HEALTH:".toList
        ++ fmt_d b ++ ";YOUR_TURN:".toList ++ fmt_d t ++ ';' :: R
      = "YOUR_HEALTH:".toList ++ (fmt_d a ++ ';' :: ("OPPONENT_HEALTH:".toList
        ++ fmt_d b ++ ";YOUR_TURN:".toList ++ fmt_d t ++ ';' :: R)) := by simp
  have e2 : "YOUR_HEALTH:".toList ++ fmt_d a ++ ";OPPONENT_HEALTH:".toList
        ++ fmt_d b ++ ";YOUR_TURN:".toList ++ fmt_d t ++ ';' :: R
      = "YOUR_HEALTH:".toList ++ fmt_d a ++ ";OPPONENT_HEALTH:".toList
        ++ (fmt_d b ++ ';' :: ("YOUR_TURN:".toList ++ fmt_d t ++ ';' :: R)) := by simp
  have e3 : "YOUR_HEALTH:".toList ++ fmt_d a ++ ";OPPONENT_HEALTH:".toList
        ++ fmt_d b ++ ";YOUR_TURN:".toList ++ fmt_d t ++ ';' :: R
      = "YOUR_HEALTH:".toList ++ fmt_d a ++ ";OPPONENT_HEALTH:".toList
        ++ fmt_d b ++ ";YOUR_TURN:".toList ++ (fmt_d t ++ ';' :: R) := by simp
  have l12 : "YOUR_HEALTH:".toList.length = 12 := rfl
  have l16 : "OPPONENT_HEALTH:".toList.length = 16 := rfl
  have l10 : "YOUR_TURN:".toList.length = 10 := rfl
  refine ⟨?_, ?_, ?_⟩
  · rw [f1]
    nth_rewrite 1 [e1]
    rw [strstr_key1]
    simp only
    rw [← l12, List.drop_left]
    exact atoi_fmt_d a _ ha rfl
  · rw [f2]
    nth_rewrite 1 [e2]
    rw [strstr_key2]
    simp only
    rw [← l16, List.drop_left]
    exact atoi_fmt_d b _ hb rfl
  · rw [f3]
    nth_rewrite 1 [e3]
    rw [strstr_key3]
    simp only
    rw [← l10, List.drop_left]
    exact atoi_fmt_d t _ ht rfl

/-- Decoding of the head of the state message built for a recipient `pl` with opponent
`op` and turn flag `t`, whatever the hand is. -/
theorem receive_state_message_header (pl op : Player) (t : Int) (st : Client.GameState)
    (ha : isInt pl.health) (hb : isInt op.health) (ht : isInt t) :
    (Client.receive_game_state (state_message pl op (fmt_d t)) st).player.health = pl.health
      ∧ (Client.receive_game_state (state_message pl op (fmt_d t)) st).opponent.health
          = op.health
      ∧ (Client.receive_game_state (state_message pl op (fmt_d t)) st).your_turn = t := by
  have e : state_message pl op (fmt_d t)
      = ("YOUR_HEALTH:".toList ++ fmt_d pl.health ++ ";OPPONENT_HEALTH:".toList
        ++ fmt_d op.health ++ ";YOUR_TURN:".toList ++ fmt_d t ++ ';' :: ("CARDS:".toList
          ++ List.intercalate "|".toList ((pl.hand.take pl.hand_size.toNat).map card_text)))
        ++ ['\n'] := by
    simp [state_message]
  unfold Client.receive_game_state
  rw [e, trim_newline_line]
  exact parse_header pl.health op.health t _ st ha hb ht

/-! ## C15: lines without the keys of the state message -/

set_option maxRecDepth 100000 in
/-- Counterexample to C15 as stated: the client of seat 0 holds the state of the first
broadcast (health 20 and 20, its turn, not over); the line `hello` contains none of the
four keys, yet after it the stored state is the all-zero state, not the previous one, and
the game-over check reports a defeat. -/
theorem C15_counterexample :
    Client.strstr "hello".toList "YOUR_HEALTH:".toList = none
      ∧ Client.strstr "hello".toList "OPPONENT_HEALTH:".toList = none
      ∧ Client.strstr "hello".toList "YOUR_TURN:".toList = none
      ∧ Client.strstr "hello".toList "CARDS:".toList = none
      ∧ Client.first_state.player.health = 20
      ∧ Client.first_state.opponent.health = 20
      ∧ Client.first_state.your_turn = 1
      ∧ Client.first_state.player.hand_size = 5
      ∧ Client.game_over_check Client.first_state = Client.Outcome.playing
      ∧ Client.receive_game_state "hello\n".toList Client.first_state = Client.zero_state
      ∧ Client.receive_game_state "hello\n".toList Client.first_state ≠ Client.first_state
      ∧ Client.game_over_check (Client.receive_game_state "hello\n".toList Client.first_state)
          = Client.Outcome.defeated := by
  decide

/-- C15 (amended). For every client state and every received line, `parse_game_state`
keeps nothing of the stored state: it zeroes the state and then fills in only the fields
whose key occurs in the line.  A line without `YOUR_HEALTH:` leaves the own health at 0, so
the game-over check of the client reports a defeat; a line without `OPPONENT_HEALTH:`,
`YOUR_TURN:` or `CARDS:` leaves the opponent health, the turn flag or the hand at zero;
a line without any of the four keys gives the all-zero state. -/
theorem C15_unrecognised_line_resets_state (msg : List Char) (st : Client.GameState) :
    Client.parse_game_state msg st = Client.parse_game_state msg Client.zero_state
      ∧ (Client.strstr msg "YOUR_HEALTH:".toList = none →
          (Client.parse_game_state msg st).player.health = 0
          ∧ Client.game_over_check (Client.parse_game_state msg st) = Client.Outcome.defeated)
      ∧ (Client.strstr msg "OPPONENT_HEALTH:".toList = none →
          (Client.parse_game_state msg st).opponent.health = 0)
      ∧ (Client.strstr msg "YOUR_TURN:".toList = none →
          (Client.parse_game_state msg st).your_turn = 0)
      ∧ (Client.strstr msg "CARDS:".toList = none →
          (Client.parse_game_state msg st).player.hand = Client.zero_player.hand
          ∧ (Client.parse_game_state msg st).player.hand_size = 0)
      ∧ (Client.strstr msg "YOUR_HEALTH:".toList = none →
          Client.strstr msg "OPPONENT_HEALTH:".toList = none →
          Client.strstr msg "YOUR_TURN:".toList = none →
          Client.strstr msg "CARDS:".toList = none →
          Client.parse_game_state msg st = Client.zero_state) := by
  obtain ⟨f1, f2, f3, f4, _, _⟩ := parse_fields msg st
  refine ⟨rfl, ?_, ?_, ?_, ?_, ?_⟩
  · intro h
    rw [h] at f1
    refine ⟨f1, ?_⟩
    unfold Client.game_over_check
    rw [f1]
    rfl
  · intro h; rw [h] at f2; exact f2
  · intro h; rw [h] at f3; exact f3
  · intro h
    rw [h] at f4
    simp only [Prod.mk.injEq] at f4
    exact f4
  · intro h1 h2 h3 h4
    unfold Client.parse_game_state
    rw [h1, h2, h3, h4]

/-- Witness for the amended C15: the line `hello` arriving at the client of seat 0 after
the first broadcast. -/
theorem C15_witness :
    Client.parse_game_state "hello".toList Client.first_state
        = Client.parse_game_state "hello".toList Client.zero_state
      ∧ (Client.strstr "hello".toList "YOUR_HEALTH:".toList = none →
          (Client.parse_game_state "hello".toList Client.first_state).player.health = 0
          ∧ Client.game_over_check (Client.parse_game_state "hello".toList Client.first_state)
              = Client.Outcome.defeated)
      ∧ (Client.strstr "hello".toList "OPPONENT_HEALTH:".toList = none →
          (Client.parse_game_state "hello".toList Client.first_state).opponent.health = 0)
      ∧ (Client.strstr "hello".toList "YOUR_TURN:".toList = none →
          (Client.parse_game_state "hello".toList Client.first_state).your_turn = 0)
      ∧ (Client.strstr "hello".toList "CARDS:".toList = none →
          (Client.parse_game_state "hello".toList Client.first_state).player.hand
              = Client.zero_player.hand
          ∧ (Client.parse_game_state "hello".toList Client.first_state).player.hand_size = 0)
      ∧ (Client.strstr "hello".toList "YOUR_HEALTH:".toList = none →
          Client.strstr "hello".toList "OPPONENT_HEALTH:".toList = none →
          Client.strstr "hello".toList "YOUR_TURN:".toList = none →
          Client.strstr "hello".toList "CARDS:".toList = none →
          Client.parse_game_state "hello".toList Client.first_state = Client.zero_state) :=
  C15_unrecognised_line_resets_state "hello".toList Client.first_state

/-! ## C19: the final broadcast and the outcome seen by the clients -/

theorem flag_fmt_d (c : Prop) [Decidable c] :
    (if c then "1".toList else "0".toList) = fmt_d (if c then 1 else 0) := by
  split_ifs <;> rfl

theorem flag_isInt (c : Prop) [Decidable c] : isInt (if c then 1 else 0) := by
  split_ifs <;> decide

/-- C19. For every reachable non-terminal match (player records within the C types) in
which the active seat `p` plays an Attack card that brings the health of the opponent to
0, the loop iteration sets `game_over`, keeps `current_turn`, and leaves the opponent at
health 0; the final messages are built, the one for `p` carrying `OPPONENT_HEALTH:0` and
the one for `1 - p` starting with `YOUR_HEALTH:0`; and the clients, after
`receive_game_state` and the game-over check, classify seat `p` as the winner and seat
`1 - p` as defeated. -/
theorem C19_final_broadcast (gs : GameState) (buffer : List Char) (actor opp : Player)
    (card : Card) (i : Int) (st_p st_o : Client.GameState)
    (hreach : Reachable gs) (hgo : gs.game_over = 0)
    (hactor : gs.player gs.current_turn = some actor)
    (hopp : gs.player (1 - gs.current_turn) = some opp)
    (hpre : (remove_newline buffer).take 10 = PLAY_CARD)
    (hi : atoi ((remove_newline buffer).drop 10) = i)
    (hlo : 1 ≤ i) (hhi : i ≤ actor.hand_size)
    (hcard : actor.hand[(i - 1).toNat]? = some card)
    (htype : card.type = "Attack".toList)
    (hzero : opp.health - card.power ≤ 0)
    (hok1 : player_ok actor) (hok2 : player_ok opp) :
    ∃ (gs1 : GameState) (mp mo : List Char),
      turn_step gs (Recv.line buffer) = some gs1
      ∧ gs1.game_over = 1 ∧ gs1.current_turn = gs.current_turn
      ∧ (gs1.player (1 - gs.current_turn)).map (fun o => o.health) = some 0
      ∧ (gs1.player gs.current_turn).map (fun a => a.health) = some actor.health
      ∧ send_game_state gs.current_turn gs1 = some mp
      ∧ send_game_state (1 - gs.current_turn) gs1 = some mo
      ∧ (∃ R : List Char, mp = "YOUR_HEALTH:".toList ++ fmt_d actor.health
          ++ ";OPPONENT_HEALTH:0;".toList ++ R)
      ∧ (∃ R : List Char, mo = "YOUR_HEALTH:0;".toList ++ R)
      ∧ Client.game_over_check (Client.receive_game_state mp st_p) = Client.Outcome.won
      ∧ Client.game_over_check (Client.receive_game_state mo st_o)
          = Client.Outcome.defeated := by
  obtain ⟨hturn, hs1, hl1, hs2, hl2, hpos, _⟩ := reachable_inv gs hreach
  obtain ⟨hp1, hp2⟩ := hpos hgo
  have hmax : MAX_CARDS = 5 := rfl
  -- the records of the two seats before the move
  have hrec : actor.hand_size = 5 ∧ actor.hand.length = 5 ∧ opp.hand_size = 5
      ∧ opp.hand.length = 5 ∧ 0 < actor.health ∧ 0 < opp.health := by
    rcases hturn with h | h
    · rw [h] at hactor hopp
      simp [GameState.player] at hactor hopp
      subst hactor; subst hopp
      exact ⟨hs1, hl1, hs2, hl2, hp1, hp2⟩
    · rw [h] at hactor hopp
      simp [GameState.player] at hactor hopp
      subst hactor; subst hopp
      exact ⟨hs2, hl2, hs1, hl1, hp2, hp1⟩
  obtain ⟨ras, ral, ros, rol, rah, roh⟩ := hrec
  have hlen : (i - 1).toNat < actor.hand.length := by
    rcases Nat.lt_or_ge (i - 1).toNat actor.hand.length with h | h
    · exact h
    · rw [List.getElem?_eq_none h] at hcard; simp at hcard
  have hcmem : card ∈ actor.hand := List.getElem?_mem hcard
  have hcok := hok1.1 card hcmem
  -- the move
  obtain ⟨g, actor1, opp1, hm, ha1, ho1, hhand, hsz, hoh, hos, hct, hgov, hA, _, _⟩ :=
    handle_valid_result gs gs.current_turn (remove_newline buffer) actor opp card i
      hactor hopp hpre hi hlo hhi hcard
  have hs : strcmp card.type "Attack".toList = 0 := by rw [htype]; exact strcmp_self _
  obtain ⟨hoz, hah⟩ := hA hs
  have hpi : isInt card.power := hcok.2.2
  have hoi : isInt opp.health := hok2.2
  have hwrap : int32 (opp.health - card.power) = opp.health - card.power := by
    apply int32_of_isInt
    unfold isInt INT_MIN INT_MAX at hpi hoi ⊢
    omega
  have hoz0 : opp1.health = 0 := by rw [hoz, hwrap]; omega
  -- the loop iteration
  have hnot : ¬ (0 < g.players.1.health ∧ 0 < g.players.2.health) := by
    rcases hturn with h | h
    · rw [h] at ho1
      simp [GameState.player] at ho1
      rw [ho1]; omega
    · rw [h] at ho1
      simp [GameState.player] at ho1
      rw [ho1]; omega
  have hstep := turn_step_line gs g buffer actor hgo hactor hm
  rw [if_neg hnot] at hstep
  have hpa : ({ g with game_over := 1 } : GameState).player gs.current_turn = some actor1 := ha1
  have hpo : ({ g with game_over := 1 } : GameState).player (1 - gs.current_turn)
      = some opp1 := ho1
  have hpa2 : ({ g with game_over := 1 } : GameState).player (1 - (1 - gs.current_turn))
      = some actor1 := by
    rw [sub_sub_cancel]; exact ha1
  -- the records after the move fit the C types
  have hcards1 : ∀ c ∈ actor1.hand.take actor1.hand_size.toNat, card_ok c := by
    intro c hc
    have hc2 := List.mem_of_mem_take hc
    rw [hhand] at hc2
    rcases List.mem_or_eq_of_mem_set hc2 with h | h
    · exact hok1.1 c h
    · subst h
      obtain ⟨n1, n2, _⟩ := hcok
      exact ⟨n1, n2, int32_isInt _⟩
  have hcards2 : ∀ c ∈ opp1.hand.take opp1.hand_size.toNat, card_ok c := by
    intro c hc
    have hc2 := List.mem_of_mem_take hc
    rw [hoh] at hc2
    exact hok2.1 c hc2
  have hia : isInt actor1.health := by rw [hah]; exact hok1.2
  have hio : isInt opp1.health := by rw [hoz0]; decide
  have mp := send_game_state_msg { g with game_over := 1 } gs.current_turn actor1 opp1 hpa hpo
    (by rw [hsz, ras]; decide) (by rw [hhand, List.length_set, ral, hmax]) hcards1 hia hio
  have mo := send_game_state_msg { g with game_over := 1 } (1 - gs.current_turn) opp1 actor1
    hpo hpa2 (by rw [hos, ros]; decide) (by rw [hoh, rol, hmax]) hcards2 hio hia
  rw [flag_fmt_d] at mp mo
  refine ⟨_, _, _, hstep, rfl, hct, ?_, ?_, mp, mo, ?_, ?_, ?_, ?_⟩
  · rw [hpo]; simp [hoz0]
  · rw [hpa]; simp [hah]
  · refine ⟨"YOUR_TURN:".toList ++ fmt_d (if g.current_turn = gs.current_turn then 1 else 0)
      ++ ";CARDS:".toList ++ List.intercalate "|".toList
        ((actor1.hand.take actor1.hand_size.toNat).map card_text) ++ "\n".toList, ?_⟩
    have z : fmt_d 0 = "0".toList := rfl
    simp [state_message, hoz0, hah, z]
  · refine ⟨"OPPONENT_HEALTH:".toList ++ fmt_d actor1.health ++ ";YOUR_TURN:".toList
      ++ fmt_d (if g.current_turn = 1 - gs.current_turn then 1 else 0)
      ++ ";CARDS:".toList ++ List.intercalate "|".toList
        ((opp1.hand.take opp1.hand_size.toNat).map card_text) ++ "\n".toList, ?_⟩
    have z : fmt_d 0 = "0".toList := rfl
    simp [state_message, hoz0, z]
  · obtain ⟨r1, r2, _⟩ := receive_state_message_header actor1 opp1
      (if g.current_turn = gs.current_turn then 1 else 0) st_p hia hio (flag_isInt _)
    unfold Client.game_over_check
    rw [r1, r2, hah, hoz0, if_neg (by omega), if_pos (le_refl 0)]
  · obtain ⟨r1, _, _⟩ := receive_state_message_header opp1 actor1
      (if g.current_turn = 1 - gs.current_turn then 1 else 0) st_o hio hia (flag_isInt _)
    unfold Client.game_over_check
    rw [r1, hoz0, if_pos (le_refl 0)]

/-- The states produced by the loop of `main` from a reachable state are reachable. -/
theorem reachable_game_loop (rs : List Recv) : ∀ gs gs1 : GameState, Reachable gs →
    game_loop gs rs = some gs1 → Reachable gs1 := by
  induction rs with
  | nil =>
    intro gs gs1 h hl
    simp [game_loop] at hl
    subst hl
    exact h
  | cons r rs ih =>
    intro gs gs1 h hl
    by_cases hgo : gs.game_over = 0
    · simp only [game_loop, hgo] at hl
      cases hs : turn_step gs r with
      | none => simp [hs] at hl
      | some g =>
        simp [hs] at hl
        exact ih g gs1 (Reachable.step gs g r h hgo hs) hl
    · rw [game_loop_over gs _ hgo] at hl
      simp at hl
      subst hl
      exact h

theorem reachable_state_before_final : Reachable state_before_final :=
  reachable_game_loop
    [play '1', Recv.line "x".toList, play '1', Recv.line "x".toList, play '1',
     Recv.line "x".toList] accept_players state_before_final Reachable.init (by decide)

/-- Witness for C19: seat 1 is at health 2 and seat 0 plays Fireball at power 4. -/
theorem C19_witness :
    ∃ (gs1 : GameState) (mp mo : List Char),
      turn_step state_before_final (Recv.line "PLAY_CARD:1\n".toList) = some gs1
      ∧ gs1.game_over = 1 ∧ gs1.current_turn = state_before_final.current_turn
      ∧ (gs1.player (1 - state_before_final.current_turn)).map (fun o => o.health) = some 0
      ∧ (gs1.player state_before_final.current_turn).map (fun a => a.health)
          = some state_before_final.players.1.health
      ∧ send_game_state state_before_final.current_turn gs1 = some mp
      ∧ send_game_state (1 - state_before_final.current_turn) gs1 = some mo
      ∧ (∃ R : List Char, mp = "YOUR_HEALTH:".toList
          ++ fmt_d state_before_final.players.1.health ++ ";OPPONENT_HEALTH:0;".toList ++ R)
      ∧ (∃ R : List Char, mo = "YOUR_HEALTH:0;".toList ++ R)
      ∧ Client.game_over_check (Client.receive_game_state mp Client.zero_state)
          = Client.Outcome.won
      ∧ Client.game_over_check (Client.receive_game_state mo Client.zero_state)
          = Client.Outcome.defeated :=
  C19_final_broadcast state_before_final "PLAY_CARD:1\n".toList
    state_before_final.players.1 state_before_final.players.2
    { name := "Fireball".toList, type := "Attack".toList, power := 4 } 1
    Client.zero_state Client.zero_state
    reachable_state_before_final (by decide) (by decide) (by decide) (by decide) (by decide)
    (by decide) (by decide) (by decide) (by rfl) (by decide) (by decide) (by decide)

/-! ## Lemmas on the card list of the state message -/

theorem takeWhile_ne_append (d : Char) (rest : List Char) :
    ∀ tok : List Char, (∀ c ∈ tok, c ≠ d) →
      (tok ++ d :: rest).takeWhile (fun x => x ≠ d) = tok
      ∧ (tok ++ d :: rest).dropWhile (fun x => x ≠ d) = d :: rest
      ∧ tok.takeWhile (fun x => x ≠ d) = tok
      ∧ tok.dropWhile (fun x => x ≠ d) = [] := by
  intro tok
  induction tok with
  | nil =>
    intro _
    refine ⟨?_, ?_, rfl, rfl⟩
    · rw [List.nil_append, List.takeWhile_cons]; simp
    · rw [List.nil_append, List.dropWhile_cons]; simp
  | cons a as ih =>
    intro h
    have ha : a ≠ d := h a (by simp)
    obtain ⟨i1, i2, i3, i4⟩ := ih (fun c hc => h c (by simp [hc]))
    refine ⟨?_, ?_, ?_, ?_⟩
    · rw [List.cons_append, List.takeWhile_cons, i1]; simp [ha]
    · rw [List.cons_append, List.dropWhile_cons, i2]; simp [ha]
    · rw [List.takeWhile_cons, i3]; simp [ha]
    · rw [List.dropWhile_cons, i4]; simp [ha]

/-- The first `strtok_r` token of a text that starts with a non-empty stretch free of the
delimiter, followed by the delimiter. -/
theorem strtok_r_token (d : Char) (tok rest : List Char) (hne : tok ≠ [])
    (h : ∀ c ∈ tok, c ≠ d) :
    Client.strtok_r (tok ++ d :: rest) d = some (tok, rest) := by
  obtain ⟨i1, i2, _, _⟩ := takeWhile_ne_append d rest tok h
  cases tok with
  | nil => exact absurd rfl hne
  | cons a as =>
    have ha : a ≠ d := h a (by simp)
    have e : (a :: as ++ d :: rest).dropWhile (fun c => decide (c = d))
        = a :: (as ++ d :: rest) := by
      rw [List.cons_append, List.dropWhile_cons]; simp [ha]
    unfold Client.strtok_r
    rw [e]
    simp only
    rw [List.cons_append] at i1 i2
    rw [i1, i2]
    rfl

/-- The last `strtok_r` token: a non-empty text free of the delimiter. -/
theorem strtok_r_last (d : Char) (tok : List Char) (hne : tok ≠ [])
    (h : ∀ c ∈ tok, c ≠ d) :
    Client.strtok_r tok d = some (tok, []) := by
  obtain ⟨_, _, i3, i4⟩ := takeWhile_ne_append d [] tok h
  cases tok with
  | nil => exact absurd rfl hne
  | cons a as =>
    have ha : a ≠ d := h a (by simp)
    have e : (a :: as).dropWhile (fun c => decide (c = d)) = a :: as := by
      rw [List.dropWhile_cons]; simp [ha]
    unfold Client.strtok_r
    rw [e]
    simp only
    rw [i3, i4]
    rfl

theorem strtok_r_nil (d : Char) : Client.strtok_r [] d = none := rfl

theorem card_text_cons (c : Card) :
    card_text c = c.name ++ ',' :: (c.type ++ ',' :: fmt_d c.power) := by
  simp [card_text]

theorem card_text_no_bar (c : Card) (hp : card_plain c) :
    card_text c ≠ [] ∧ ∀ ch ∈ card_text c, ch ≠ '|' := by
  obtain ⟨h1, _, h3⟩ := hp
  constructor
  · rw [card_text_cons]
    cases hn : c.name with
    | nil => exact absurd hn h1
    | cons a as => simp
  · intro ch hch
    rw [card_text_cons] at hch
    simp only [List.mem_append, List.mem_cons] at hch
    rcases hch with h | h | h | h | h
    · exact (h3 ch (by simp [h])).2.1
    · rw [h]; decide
    · exact (h3 ch (by simp [h])).2.1
    · rw [h]; decide
    · exact fmt_d_ne c.power '|' (by decide) (by decide) ch h

/-- One card of the message read back by the client. -/
theorem parse_card_text (c : Card) (hok : card_ok c) (hp : card_plain c)
    (hand : List Client.Card) (count : Nat) :
    Client.parse_card (card_text c) hand count = (hand.set count (to_client c), count + 1) := by
  have hlen := card_text_length c hok
  obtain ⟨k1, k2, k3⟩ := hok
  obtain ⟨h1, h2, h3⟩ := hp
  have hname : ∀ ch ∈ c.name, ch ≠ ',' := fun ch hch => (h3 ch (by simp [hch])).1
  have htype : ∀ ch ∈ c.type, ch ≠ ',' := fun ch hch => (h3 ch (by simp [hch])).1
  have hpow : ∀ ch ∈ fmt_d c.power, ch ≠ ',' := fmt_d_ne c.power ',' (by decide) (by decide)
  have t1 := strtok_r_token ',' c.name (c.type ++ ',' :: fmt_d c.power) h1 hname
  have t2 := strtok_r_token ',' c.type (fmt_d c.power) h2 htype
  have t3 := strtok_r_last ',' (fmt_d c.power) (fmt_d_ne_nil c.power) hpow
  have hat : atoi (fmt_d c.power) = c.power := by
    have := atoi_fmt_d c.power [] k3 rfl
    simpa using this
  unfold Client.parse_card Client.strncpy
  rw [List.take_of_length_le (by omega : (card_text c).length ≤ 63), card_text_cons]
  simp only [t1, t2, t3]
  rw [List.take_of_length_le (by omega : c.name.length ≤ 19),
    List.take_of_length_le (by omega : c.type.length ≤ 9), hat]
  rfl

theorem strtok_r_cards_text (c : Card) (cs : List Card) (hp : card_plain c) :
    Client.strtok_r (cards_text (c :: cs)) '|' = some (card_text c, cards_text cs) := by
  obtain ⟨hne, hbar⟩ := card_text_no_bar c hp
  cases cs with
  | nil =>
    simp only [cards_text, List.map_cons, List.map_nil, intercalate_single]
    rw [strtok_r_last '|' _ hne hbar]
    rfl
  | cons b l =>
    simp only [cards_text, List.map_cons, intercalate_cons_cons]
    have e : card_text c ++ "|".toList ++ List.intercalate "|".toList (card_text b :: List.map card_text l)
        = card_text c ++ '|' :: List.intercalate "|".toList (card_text b :: List.map card_text l) := by
      simp
    rw [e, strtok_r_token '|' _ _ hne hbar]

theorem take_succ_set {α : Type} (l : List α) (a : α) :
    ∀ n : Nat, n < l.length → (l.set n a).take (n + 1) = l.take n ++ [a] := by
  induction l with
  | nil => intro n h; simp at h
  | cons x xs ih =>
    intro n h
    cases n with
    | zero => simp
    | succ m =>
      have := ih m (by simpa using h)
      simp [List.set, this]

/-- The card loop of the client on the cards part of a state message: the cards are
stored in order from slot `count` on. -/
theorem parse_cards_text : ∀ (cs : List Card) (fuel count : Nat) (hand : List Client.Card),
    (∀ c ∈ cs, card_ok c ∧ card_plain c) → cs.length ≤ fuel →
    count + cs.length ≤ MAX_CARDS → hand.length = MAX_CARDS →
    Client.parse_cards fuel (Client.strtok_r (cards_text cs) '|') hand count
      = (hand.take count ++ cs.map to_client ++ hand.drop (count + cs.length),
         count + cs.length) := by
  intro cs
  induction cs with
  | nil =>
    intro fuel count hand _ _ _ _
    have e : cards_text [] = [] := rfl
    rw [e, strtok_r_nil]
    cases fuel <;> simp [Client.parse_cards]
  | cons c cs ih =>
    intro fuel count hand hall hfuel hcount hlen
    obtain ⟨hok, hp⟩ := hall c (by simp)
    have hmax : MAX_CARDS = 5 := rfl
    simp only [List.length_cons] at hfuel hcount
    cases fuel with
    | zero => omega
    | succ f =>
      rw [strtok_r_cards_text c cs hp]
      have hc : count < MAX_CARDS := by omega
      simp only [Client.parse_cards, hc, if_true, parse_card_text c hok hp]
      rw [ih f (count + 1) _ (fun x hx => hall x (by simp [hx])) (by omega) (by omega)
        (by rw [List.length_set]; exact hlen)]
      have hcl : count < hand.length := by omega
      rw [take_succ_set hand (to_client c) count hcl,
        List.drop_set_of_lt (to_client c) hand (by omega : count < count + 1 + cs.length)]
      simp only [List.map_cons, List.length_cons, List.append_assoc, List.singleton_append,
        Prod.mk.injEq]
      constructor
      · congr 3; omega
      · omega

theorem strchr_none (c : Char) : ∀ s : List Char, (∀ x ∈ s, x ≠ c) →
    Client.strchr s c = none := by
  intro s
  induction s with
  | nil => intro _; rfl
  | cons a as ih =>
    intro h
    have ha : a ≠ c := h a (by simp)
    simp [Client.strchr, ha, ih (fun x hx => h x (by simp [hx]))]

theorem card_text_no_semicolon (c : Card) (hp : card_plain c) :
    ∀ ch ∈ card_text c, ch ≠ ';' := by
  obtain ⟨_, _, h3⟩ := hp
  intro ch hch
  rw [card_text_cons] at hch
  simp only [List.mem_append, List.mem_cons] at hch
  rcases hch with h | h | h | h | h
  · exact (h3 ch (by simp [h])).2.2.1
  · rw [h]; decide
  · exact (h3 ch (by simp [h])).2.2.1
  · rw [h]; decide
  · exact fmt_d_ne c.power ';' (by decide) (by decide) ch h

/-- The cards part of a message: free of `;`, at most 42 characters per card and at least
one. -/
theorem cards_text_facts : ∀ cs : List Card, (∀ c ∈ cs, card_ok c ∧ card_plain c) →
    (∀ ch ∈ cards_text cs, ch ≠ ';') ∧ (cards_text cs).length ≤ 42 * cs.length
      ∧ cs.length ≤ (cards_text cs).length := by
  intro cs
  induction cs with
  | nil => intro _; exact ⟨by simp [cards_text, List.intercalate], by simp [cards_text, List.intercalate], by simp⟩
  | cons c cs ih =>
    intro hall
    obtain ⟨hok, hp⟩ := hall c (by simp)
    obtain ⟨i1, i2, i3⟩ := ih (fun x hx => hall x (by simp [hx]))
    have hl := card_text_length c hok
    have hsemi := card_text_no_semicolon c hp
    have hne := (card_text_no_bar c hp).1
    have hpos : 1 ≤ (card_text c).length := by
      cases hct : card_text c with
      | nil => exact absurd hct hne
      | cons a as => simp
    cases cs with
    | nil =>
      simp only [cards_text, List.map_cons, List.map_nil, intercalate_single, List.length_cons,
        List.length_nil]
      exact ⟨hsemi, by omega, by omega⟩
    | cons b l =>
      have e : cards_text (c :: b :: l) = card_text c ++ "|".toList ++ cards_text (b :: l) := by
        simp only [cards_text, List.map_cons, intercalate_cons_cons]
      rw [e]
      have hbar : "|".toList.length = 1 := rfl
      refine ⟨?_, ?_, ?_⟩
      · intro ch hch
        simp only [List.mem_append] at hch
        rcases hch with (h | h) | h
        · exact hsemi ch h
        · have : ch = '|' := by simpa using h
          rw [this]; decide
        · exact i1 ch h
      · simp only [List.length_append, List.length_cons] at i2 ⊢
        omega
      · simp only [List.length_append, List.length_cons] at i3 ⊢
        omega

theorem cards_buffer_text (cs : List Card) (hall : ∀ c ∈ cs, card_ok c ∧ card_plain c)
    (hn : cs.length ≤ 5) : Client.cards_buffer (cards_text cs) = cards_text cs := by
  obtain ⟨h1, h2, _⟩ := cards_text_facts cs hall
  unfold Client.cards_buffer Client.strncpy
  rw [strchr_none ';' _ h1]
  exact List.take_of_length_le (by omega)

/-- The state message built for a recipient `pl`, read back by the client: the three
numbers of the head and the cards in hand, slot by slot. -/
theorem receive_state_message (pl op : Player) (t : Int) (st : Client.GameState)
    (h0 : 0 ≤ pl.hand_size) (hsize : pl.hand_size ≤ MAX_CARDS)
    (hslots : pl.hand.length = MAX_CARDS)
    (hall : ∀ c ∈ pl.hand.take pl.hand_size.toNat, card_ok c ∧ card_plain c) :
    (Client.receive_game_state (state_message pl op (fmt_d t)) st).player.hand
        = (pl.hand.take pl.hand_size.toNat).map to_client
            ++ Client.zero_player.hand.drop pl.hand_size.toNat
      ∧ (Client.receive_game_state (state_message pl op (fmt_d t)) st).player.hand_size
        = pl.hand_size := by
  have hmax : MAX_CARDS = 5 := rfl
  have hlen : (pl.hand.take pl.hand_size.toNat).length = pl.hand_size.toNat := by
    rw [List.length_take]; omega
  have e : state_message pl op (fmt_d t)
      = ("YOUR_HEALTH:".toList ++ fmt_d pl.health ++ ";OPPONENT_HEALTH:".toList
        ++ fmt_d op.health ++ ";YOUR_TURN:".toList ++ fmt_d t ++ ";CARDS:".toList
          ++ cards_text (pl.hand.take pl.hand_size.toNat)) ++ ['\n'] := by
    simp [state_message, cards_text]
  have hall2 : ∀ c ∈ pl.hand.take pl.hand_size.toNat, card_ok c ∧ card_plain c := hall
  obtain ⟨_, _, hfuel⟩ := cards_text_facts _ hall2
  have l6 : "CARDS:".toList.length = 6 := rfl
  unfold Client.receive_game_state
  rw [e, trim_newline_line]
  obtain ⟨_, _, _, f4, _, _⟩ := parse_fields ("YOUR_HEALTH:".toList ++ fmt_d pl.health
    ++ ";OPPONENT_HEALTH:".toList ++ fmt_d op.health ++ ";YOUR_TURN:".toList ++ fmt_d t
    ++ ";CARDS:".toList ++ cards_text (pl.hand.take pl.hand_size.toNat)) st
  rw [strstr_key4 pl.health op.health (fmt_d t) _ (fmt_d_ne t 'C' (by decide) (by decide))] at f4
  simp only at f4
  rw [← l6, List.drop_left, cards_buffer_text _ hall2 (by omega),
    parse_cards_text _ _ 0 Client.zero_player.hand hall2 (by omega) (by omega) rfl] at f4
  simp only [Prod.mk.injEq, List.take_zero, List.nil_append, Nat.zero_add] at f4
  obtain ⟨g1, g2⟩ := f4
  refine ⟨?_, ?_⟩
  · rw [g1, hlen]
  · rw [g2, hlen]
    omega

/-! ## C20: the client decodes what the server encodes -/

/-- C20. For every game state and seat `p` in `{0,1}` whose hand has between 0 and 5
cards, each with a non-empty name shorter than 20 and a non-empty type shorter than 10
characters free of `,` `|` `;` `:` and newline (all integers being C `int` values,
negative ones included), `send_game_state` builds a message for `p`, and `trim_newline`
followed by `parse_game_state` on it yields the health of `p`, the health of the
opponent, the turn flag (1 if `current_turn = p`, else 0), the hand size of `p` and, slot
by slot, the same card name, type and power; the unused slots and the whole opponent hand
of the client stay zeroed. -/
theorem C20_state_round_trip (gs : GameState) (p : Int) (player opponent : Player)
    (st : Client.GameState)
    (hpl : gs.player p = some player) (hopp : gs.player (1 - p) = some opponent)
    (h0 : 0 ≤ player.hand_size) (hsize : player.hand_size ≤ MAX_CARDS)
    (hslots : player.hand.length = MAX_CARDS)
    (hcards : ∀ c ∈ player.hand.take player.hand_size.toNat, card_ok c ∧ card_plain c)
    (hh1 : isInt player.health) (hh2 : isInt opponent.health) :
    ∃ msg : List Char, send_game_state p gs = some msg
      ∧ (Client.receive_game_state msg st).player.health = player.health
      ∧ (Client.receive_game_state msg st).opponent.health = opponent.health
      ∧ (Client.receive_game_state msg st).your_turn = (if gs.current_turn = p then 1 else 0)
      ∧ (Client.receive_game_state msg st).player.hand_size = player.hand_size
      ∧ (∀ j : Nat, (j : Int) < player.hand_size →
          (Client.receive_game_state msg st).player.hand[j]?
            = (player.hand[j]?).map to_client)
      ∧ (∀ j : Nat, player.hand_size ≤ (j : Int) → j < MAX_CARDS →
          (Client.receive_game_state msg st).player.hand[j]? = some Client.zero_card)
      ∧ (Client.receive_game_state msg st).opponent.hand_size = 0
      ∧ (Client.receive_game_state msg st).opponent.hand
          = List.replicate MAX_CARDS Client.zero_card := by
  have hmax : MAX_CARDS = 5 := rfl
  have hm := send_game_state_msg gs p player opponent hpl hopp hsize hslots
    (fun c hc => (hcards c hc).1) hh1 hh2
  rw [flag_fmt_d] at hm
  obtain ⟨r1, r2, r3⟩ := receive_state_message_header player opponent
    (if gs.current_turn = p then 1 else 0) st hh1 hh2 (flag_isInt _)
  obtain ⟨r4, r5⟩ := receive_state_message player opponent
    (if gs.current_turn = p then 1 else 0) st h0 hsize hslots hcards
  have hlen : (player.hand.take player.hand_size.toNat).length = player.hand_size.toNat := by
    rw [List.length_take]; omega
  have hlen2 : ((player.hand.take player.hand_size.toNat).map to_client).length
      = player.hand_size.toNat := by
    rw [List.length_map, hlen]
  obtain ⟨_, _, _, _, f5, f6⟩ := parse_fields
    (Client.trim_newline (state_message player opponent
      (fmt_d (if gs.current_turn = p then 1 else 0)))) st
  refine ⟨state_message player opponent (fmt_d (if gs.current_turn = p then 1 else 0)),
    hm, r1, r2, r3, r5, ?_, ?_, ?_, ?_⟩
  rotate_left 2
  · unfold Client.receive_game_state; exact f6
  · unfold Client.receive_game_state; rw [f5]; rfl
  · intro j hj
    have hj2 : j < player.hand_size.toNat := by omega
    rw [r4, List.getElem?_append_left (by rw [hlen2]; exact hj2), List.getElem?_map,
      List.getElem?_take_of_lt hj2]
  · intro j hj hj5
    rw [r4, List.getElem?_append_right (by rw [hlen2]; omega), hlen2]
    unfold Client.zero_player
    simp only [List.drop_replicate]
    rw [List.getElem?_replicate]
    rw [if_pos (by omega)]

/-- Witness for C20: the message for seat 0 in the initial match, read by a client in its
zeroed start state. -/
theorem C20_witness :
    ∃ msg : List Char, send_game_state 0 accept_players = some msg
      ∧ (Client.receive_game_state msg Client.zero_state).player.health = 20
      ∧ (Client.receive_game_state msg Client.zero_state).opponent.health = 20
      ∧ (Client.receive_game_state msg Client.zero_state).your_turn
          = (if accept_players.current_turn = 0 then 1 else 0)
      ∧ (Client.receive_game_state msg Client.zero_state).player.hand_size = 5
      ∧ (∀ j : Nat, (j : Int) < 5 →
          (Client.receive_game_state msg Client.zero_state).player.hand[j]?
            = (deck0[j]?).map to_client)
      ∧ (∀ j : Nat, (5 : Int) ≤ (j : Int) → j < MAX_CARDS →
          (Client.receive_game_state msg Client.zero_state).player.hand[j]?
            = some Client.zero_card)
      ∧ (Client.receive_game_state msg Client.zero_state).opponent.hand_size = 0
      ∧ (Client.receive_game_state msg Client.zero_state).opponent.hand
          = List.replicate MAX_CARDS Client.zero_card :=
  C20_state_round_trip accept_players 0 accept_players.players.1 accept_players.players.2
    Client.zero_state (by rfl) (by rfl) (by decide) (by decide) (by rfl) (by decide)
    (by decide) (by decide)


/-! ## Rejected lines, with the index within the range of `int` -/

/-- A rejection stated on the number written in the line: when that number is within the
range of `int`, it is the value that `atoi` returns and the handler compares. -/
theorem rejected_of_value (message : List Char) (hand_size : Int)
    (hrej : message.take 10 ≠ PLAY_CARD
      ∨ (isInt (atoi_value (message.drop 10))
          ∧ (atoi_value (message.drop 10) < 1 ∨ atoi_value (message.drop 10) > hand_size))) :
    message.take 10 ≠ PLAY_CARD ∨ atoi (message.drop 10) < 1
      ∨ atoi (message.drop 10) > hand_size := by
  rcases hrej with h | ⟨hr, h⟩
  · exact Or.inl h
  · rw [atoi_of_isInt _ hr]
    exact Or.inr h

/-! ## C3: a rejected line leaves the match unchanged -/

/-- Counterexample to C3 as stated: the line `PLAY_CARD:4294967297` begins with
`PLAY_CARD:` and carries the integer index 4294967297, which is `> hand_size = 5`; but
`atoi` stores it in an `int` as 1, and the handler plays card 1 of seat 0 exactly as for
`PLAY_CARD:1` (Fireball hits seat 1 for 7 and drops to power 6): the state is not
unchanged. -/
theorem C3_counterexample :
    ("PLAY_CARD:4294967297".toList).take 10 = PLAY_CARD
      ∧ atoi_value (("PLAY_CARD:4294967297".toList).drop 10) = 4294967297
      ∧ atoi_value (("PLAY_CARD:4294967297".toList).drop 10)
          > accept_players.players.1.hand_size
      ∧ atoi (("PLAY_CARD:4294967297".toList).drop 10) = 1
      ∧ handle_player_move accept_players 0 "PLAY_CARD:4294967297".toList
          = handle_player_move accept_players 0 "PLAY_CARD:1".toList
      ∧ handle_player_move accept_players 0 "PLAY_CARD:4294967297".toList
          ≠ some accept_players
      ∧ (handle_player_move accept_players 0 "PLAY_CARD:4294967297".toList).map
          (fun s => (s.players.2.health, s.players.1.hand.map (fun c => c.power)))
          = some (13, [6, 5, 6, 4, 5]) := by
  decide

/-- C3 (amended). For every game state, seat `p` (with player record `pl`) and message
that does not start with `PLAY_CARD:`, or starts with it and carries a number within the
range of a C `int` that is `< 1` or `> hand_size` of seat `p`, `handle_player_move`
returns the game state unchanged (health, hands, hand sizes, `current_turn`,
`game_over`), and so does any number `n` of repeated calls with the same line. -/
theorem C3_rejection_leaves_state_unchanged (gs : GameState) (p : Int)
    (message : List Char) (pl : Player)
    (hpl : gs.player p = some pl)
    (hrej : message.take 10 ≠ PLAY_CARD
      ∨ (isInt (atoi_value (message.drop 10))
          ∧ (atoi_value (message.drop 10) < 1
              ∨ atoi_value (message.drop 10) > pl.hand_size))) :
    handle_player_move gs p message = some gs
      ∧ ∀ n : Nat, handle_player_move_n p message n gs = some gs := by
  have h1 := handle_rejected gs p message pl hpl (rejected_of_value message _ hrej)
  refine ⟨h1, ?_⟩
  intro n
  induction n with
  | zero => rfl
  | succ k ih => simp [handle_player_move_n, h1, ih]

/-- Witness for the amended C3: `PLAY_CARD:9` against the 5-card hand of seat 0. -/
theorem C3_witness :
    handle_player_move accept_players 0 "PLAY_CARD:9".toList = some accept_players
      ∧ ∀ n : Nat,
        handle_player_move_n 0 "PLAY_CARD:9".toList n accept_players = some accept_players :=
  C3_rejection_leaves_state_unchanged accept_players 0 "PLAY_CARD:9".toList
    accept_players.players.1 (by rfl) (by decide)

/-! ## C2: a rejected line and the turn -/

/-- Counterexample to C2 as stated: in the initial match (non-terminal, seat 0 to move) the
line `PLAY_CARD:9` has index 9 `> hand_size = 5`, so it is rejected, yet the loop
iteration ends with `current_turn = 1`: the turn has moved to the other seat. -/
theorem C2_counterexample :
    accept_players.game_over = 0
      ∧ accept_players.current_turn = 0
      ∧ (remove_newline "PLAY_CARD:9\n".toList).take 10 = PLAY_CARD
      ∧ atoi ((remove_newline "PLAY_CARD:9\n".toList).drop 10) = 9
      ∧ accept_players.players.1.hand_size = 5
      ∧ turn_step accept_players (Recv.line "PLAY_CARD:9\n".toList)
          = some { accept_players with current_turn := 1 } := by
  decide

/-- C2 (amended). For every non-terminal match with the active seat in `{0,1}` and every
rejected line (it does not start with `PLAY_CARD:`, or it carries a number within the
range of a C `int` that is outside `1..hand_size`), the loop iteration leaves both players
(health, hands, hand sizes) unchanged; when both health values are `> 0` it switches
`current_turn` to the other seat and keeps `game_over = 0` (the rejected line consumes the
turn of its sender); otherwise it keeps `current_turn` and sets `game_over`. -/
theorem C2_turn_consumed_on_rejection (gs : GameState) (buffer : List Char) (pl : Player)
    (hgo : gs.game_over = 0)
    (hpl : gs.player gs.current_turn = some pl)
    (hrej : (remove_newline buffer).take 10 ≠ PLAY_CARD
      ∨ (isInt (atoi_value ((remove_newline buffer).drop 10))
          ∧ (atoi_value ((remove_newline buffer).drop 10) < 1
              ∨ atoi_value ((remove_newline buffer).drop 10) > pl.hand_size))) :
    turn_step gs (Recv.line buffer) =
      some (if 0 < gs.players.1.health ∧ 0 < gs.players.2.health then
              { gs with current_turn := 1 - gs.current_turn }
            else { gs with game_over := 1 }) := by
  have hm := handle_rejected gs gs.current_turn (remove_newline buffer) pl hpl
    (rejected_of_value _ _ hrej)
  exact turn_step_line gs gs buffer pl hgo hpl hm

/-- Witness for the amended C2: the line `PLAY_CARD:9` on the initial match. -/
theorem C2_witness :
    turn_step accept_players (Recv.line "PLAY_CARD:9\n".toList) =
      some (if 0 < accept_players.players.1.health ∧ 0 < accept_players.players.2.health then
              { accept_players with current_turn := 1 - accept_players.current_turn }
            else { accept_players with game_over := 1 }) :=
  C2_turn_consumed_on_rejection accept_players "PLAY_CARD:9\n".toList accept_players.players.1
    (by rfl) (by rfl) (by decide)

/-! ## C4: effect of an Attack card -/

/-- Counterexample to C4 as stated: seat 1 is at health 2147483647 and seat 0 plays
Fireball (Attack) at power -1.  The claim gives `max 0 (2147483647 + 1) = 2147483648`;
the subtraction overflows the `int`, the stored value is negative and the clamp leaves
seat 1 at health 0. -/
theorem C4_counterexample :
    (with_card 0 { name := "Fireball".toList, type := "Attack".toList, power := -1 }
        20 2147483647).players.1.hand[0]?
        = some { name := "Fireball".toList, type := "Attack".toList, power := -1 }
      ∧ (handle_player_move
          (with_card 0 { name := "Fireball".toList, type := "Attack".toList, power := -1 }
            20 2147483647) 0 "PLAY_CARD:1".toList).map
          (fun s => (s.players.1.health, s.players.2.health)) = some (20, 0)
      ∧ max (0 : Int) (2147483647 - (-1)) = 2147483648 := by
  decide

/-- C4 (amended). For every game state, seat `p` in `{0,1}` and valid 1-based index `i`
whose card in the hand of `p` has type `Attack` and power `w`, when `h_opp - w` is within
the range of a C `int`, `handle_player_move` sets the health of seat `1 - p` to
`max 0 (h_opp - w)` and leaves the health of `p` unchanged. -/
theorem C4_attack_effect (gs : GameState) (p : Int) (message : List Char)
    (actor opp : Player) (card : Card) (i : Int)
    (hactor : gs.player p = some actor) (hopp : gs.player (1 - p) = some opp)
    (hpre : message.take 10 = PLAY_CARD)
    (hi : atoi (message.drop 10) = i)
    (hlo : 1 ≤ i) (hhi : i ≤ actor.hand_size)
    (hcard : actor.hand[(i - 1).toNat]? = some card)
    (htype : card.type = "Attack".toList)
    (hrange : isInt (opp.health - card.power)) :
    ∃ gs1 : GameState, handle_player_move gs p message = some gs1
      ∧ (gs1.player (1 - p)).map (fun o => o.health) = some (max 0 (opp.health - card.power))
      ∧ (gs1.player p).map (fun a => a.health) = some actor.health := by
  obtain ⟨gs1, actor1, opp1, hm, ha1, ho1, _, _, _, _, _, _, hA, _, _⟩ :=
    handle_valid_result gs p message actor opp card i hactor hopp hpre hi hlo hhi hcard
  have hs : strcmp card.type "Attack".toList = 0 := by rw [htype]; exact strcmp_self _
  obtain ⟨h1, h2⟩ := hA hs
  rw [int32_of_isInt _ hrange] at h1
  refine ⟨gs1, hm, ?_, ?_⟩
  · rw [ho1]; simp [h1]
  · rw [ha1]; simp [h2]

/-- Witness for C4: seat 0 plays Fireball (Attack, power 7) against health 20, giving 13. -/
theorem C4_witness :
    ∃ gs1 : GameState, handle_player_move accept_players 0 "PLAY_CARD:1".toList = some gs1
      ∧ (gs1.player (1 - 0)).map (fun o => o.health) = some 13
      ∧ (gs1.player 0).map (fun a => a.health) = some 20 :=
  C4_attack_effect accept_players 0 "PLAY_CARD:1".toList accept_players.players.1
    accept_players.players.2
    { name := "Fireball".toList, type := "Attack".toList, power := 7 } 1
    (by rfl) (by rfl) (by decide) (by decide) (by decide) (by decide) (by rfl) (by rfl)
    (by decide)

/-! ## C5: effect of a Defense card -/

/-- Counterexample to C5 as stated: seat 0 is at health 20 and plays Shield (Defense) at
power 2147483647.  The claim gives `min 20 (20 + 2147483647) = 20`; the addition overflows
the `int`, the stored value -2147483629 is not above 20 and stays. -/
theorem C5_counterexample :
    (with_card 1 { name := "Shield".toList, type := "Defense".toList, power := 2147483647 }
        20 20).players.1.hand[1]?
        = some { name := "Shield".toList, type := "Defense".toList, power := 2147483647 }
      ∧ (handle_player_move
          (with_card 1
            { name := "Shield".toList, type := "Defense".toList, power := 2147483647 }
            20 20) 0 "PLAY_CARD:2".toList).map
          (fun s => (s.players.1.health, s.players.2.health)) = some (-2147483629, 20)
      ∧ min (20 : Int) (20 + 2147483647) = 20 := by
  decide

/-- C5 (amended). For every game state, seat `p` in `{0,1}` and valid 1-based index `i`
whose card in the hand of `p` has type `Defense` and power `w`, when `h_p + w` is within
the range of a C `int`, `handle_player_move` sets the health of `p` to `min 20 (h_p + w)`
and leaves the health of seat `1 - p` unchanged. -/
theorem C5_defense_effect (gs : GameState) (p : Int) (message : List Char)
    (actor opp : Player) (card : Card) (i : Int)
    (hactor : gs.player p = some actor) (hopp : gs.player (1 - p) = some opp)
    (hpre : message.take 10 = PLAY_CARD)
    (hi : atoi (message.drop 10) = i)
    (hlo : 1 ≤ i) (hhi : i ≤ actor.hand_size)
    (hcard : actor.hand[(i - 1).toNat]? = some card)
    (htype : card.type = "Defense".toList)
    (hrange : isInt (actor.health + card.power)) :
    ∃ gs1 : GameState, handle_player_move gs p message = some gs1
      ∧ (gs1.player p).map (fun a => a.health) = some (min 20 (actor.health + card.power))
      ∧ (gs1.player (1 - p)).map (fun o => o.health) = some opp.health := by
  obtain ⟨gs1, actor1, opp1, hm, ha1, ho1, _, _, _, _, _, _, _, hD, _⟩ :=
    handle_valid_result gs p message actor opp card i hactor hopp hpre hi hlo hhi hcard
  have hs1 : strcmp card.type "Attack".toList ≠ 0 := by rw [htype]; decide
  have hs2 : strcmp card.type "Defense".toList = 0 := by rw [htype]; exact strcmp_self _
  obtain ⟨h1, h2⟩ := hD hs1 hs2
  rw [int32_of_isInt _ hrange] at h1
  refine ⟨gs1, hm, ?_, ?_⟩
  · rw [ha1]; simp [h1]
  · rw [ho1]; simp [h2]

/-- Witness for C5: seat 0 at health 18 plays Shield (Defense, power 5) and ends at 20. -/
theorem C5_witness :
    ∃ gs1 : GameState, handle_player_move state_health18 0 "PLAY_CARD:2".toList = some gs1
      ∧ (gs1.player 0).map (fun a => a.health) = some 20
      ∧ (gs1.player (1 - 0)).map (fun o => o.health) = some 20 :=
  C5_defense_effect state_health18 0 "PLAY_CARD:2".toList state_health18.players.1
    state_health18.players.2
    { name := "Shield".toList, type := "Defense".toList, power := 5 } 2
    (by rfl) (by rfl) (by decide) (by decide) (by decide) (by decide) (by rfl) (by rfl)
    (by decide)

/-! ## C6: power decrement and frame -/

/-- Counterexample to C6 as stated: seat 0 plays Fireball at power -2147483648, the least
`int`.  The decrement overflows: the power stored afterwards is 2147483647, not one
less. -/
theorem C6_counterexample :
    (with_card 0
        { name := "Fireball".toList, type := "Attack".toList, power := -2147483648 }
        20 20).players.1.hand.map (fun c => c.power) = [-2147483648, 5, 6, 4, 5]
      ∧ (handle_player_move
          (with_card 0
            { name := "Fireball".toList, type := "Attack".toList, power := -2147483648 }
            20 20) 0 "PLAY_CARD:1".toList).map
          (fun s => s.players.1.hand.map (fun c => c.power))
          = some [2147483647, 5, 6, 4, 5]
      ∧ (2147483647 : Int) ≠ -2147483648 - 1 := by
  decide

/-- C6 (amended). For every valid move (start `PLAY_CARD:` and index `i` in `1..hand_size`
of seat `p`), whatever the type of the card, when `power - 1` is within the range of a C
`int` (the power is not the least `int`), `handle_player_move` lowers the power of card
`i` of `p` by exactly 1 and keeps its name and type, keeps every other card of `p`, the
whole hand of the opponent, the number of slots and both hand sizes. -/
theorem C6_power_decrement_and_frame (gs : GameState) (p : Int) (message : List Char)
    (actor opp : Player) (card : Card) (i : Int)
    (hactor : gs.player p = some actor) (hopp : gs.player (1 - p) = some opp)
    (hpre : message.take 10 = PLAY_CARD)
    (hi : atoi (message.drop 10) = i)
    (hlo : 1 ≤ i) (hhi : i ≤ actor.hand_size)
    (hcard : actor.hand[(i - 1).toNat]? = some card)
    (hrange : isInt (card.power - 1)) :
    ∃ (gs1 : GameState) (actor1 opp1 : Player),
      handle_player_move gs p message = some gs1
      ∧ gs1.player p = some actor1 ∧ gs1.player (1 - p) = some opp1
      ∧ actor1.hand[(i - 1).toNat]?
          = some { name := card.name, type := card.type, power := card.power - 1 }
      ∧ (∀ j : Nat, j ≠ (i - 1).toNat → actor1.hand[j]? = actor.hand[j]?)
      ∧ actor1.hand.length = actor.hand.length
      ∧ opp1.hand = opp.hand
      ∧ actor1.hand_size = actor.hand_size
      ∧ opp1.hand_size = opp.hand_size := by
  obtain ⟨gs1, actor1, opp1, hm, ha1, ho1, hhand, hsz, hoh, hos, _⟩ :=
    handle_valid_result gs p message actor opp card i hactor hopp hpre hi hlo hhi hcard
  have hlen : (i - 1).toNat < actor.hand.length := by
    rcases Nat.lt_or_ge (i - 1).toNat actor.hand.length with h | h
    · exact h
    · rw [List.getElem?_eq_none h] at hcard; simp at hcard
  rw [int32_of_isInt _ hrange] at hhand
  refine ⟨gs1, actor1, opp1, hm, ha1, ho1, ?_, ?_, ?_, hoh, hsz, hos⟩
  · rw [hhand, List.getElem?_set_self hlen]
  · intro j hj
    rw [hhand]
    exact List.getElem?_set_ne (Ne.symm hj)
  · rw [hhand, List.length_set]

/-- Witness for C6: seat 1 plays its fourth card (Rejuvenate, Defense, power 4). -/
theorem C6_witness :
    ∃ (gs1 : GameState) (actor1 opp1 : Player),
      handle_player_move accept_players 1 "PLAY_CARD:4".toList = some gs1
      ∧ gs1.player 1 = some actor1 ∧ gs1.player (1 - 1) = some opp1
      ∧ actor1.hand[3]?
          = some { name := "Rejuvenate".toList, type := "Defense".toList, power := 4 - 1 }
      ∧ (∀ j : Nat, j ≠ 3 → actor1.hand[j]? = deck1[j]?)
      ∧ actor1.hand.length = deck1.length
      ∧ opp1.hand = deck0
      ∧ actor1.hand_size = 5
      ∧ opp1.hand_size = 5 :=
  C6_power_decrement_and_frame accept_players 1 "PLAY_CARD:4".toList accept_players.players.2
    accept_players.players.1
    { name := "Rejuvenate".toList, type := "Defense".toList, power := 4 } 4
    (by rfl) (by rfl) (by decide) (by decide) (by decide) (by decide) (by rfl) (by decide)

/-! ## C11: a line whose index is not a plain integer -/

theorem atoi_value_skip_space (rest : List Char) :
    ∀ ws : List Char, (∀ c ∈ ws, isspace c = true) →
      atoi_value (ws ++ rest) = atoi_value rest := by
  intro ws
  induction ws with
  | nil => intro _; rfl
  | cons a as ih =>
    intro h
    have ha : isspace a = true := h a (by simp)
    have hd : (a :: as ++ rest).dropWhile isspace = (as ++ rest).dropWhile isspace := by
      rw [List.cons_append, List.dropWhile_cons]; simp [ha]
    have := ih (fun c hc => h c (by simp [hc]))
    unfold atoi_value at this ⊢
    rw [hd]
    exact this

theorem atoi_value_plus (n : Nat) (t : List Char) (ht : starts_with_digit t = false) :
    atoi_value ('+' :: (fmt_u n ++ t)) = n := by
  have hu := parseDigits_fmt_u n t ht
  have hd : ('+' :: (fmt_u n ++ t)).dropWhile isspace = '+' :: (fmt_u n ++ t) := by
    rw [List.dropWhile_cons]; simp [isspace]
  unfold atoi_value
  rw [hd]
  simp only [hu]

/-- The number found in a remainder made of white space, an optional `+`, the decimal
digits of `n` and any text that does not start with a digit. -/
theorem atoi_value_prefixed (ws t : List Char) (plus : Bool) (n : Nat)
    (hws : ∀ c ∈ ws, isspace c = true) (ht : starts_with_digit t = false) :
    atoi_value (ws ++ ((if plus then ['+'] else []) ++ (fmt_u n ++ t))) = n := by
  rw [atoi_value_skip_space _ ws hws]
  cases plus with
  | true => exact atoi_value_plus n t ht
  | false =>
    have h := atoi_value_fmt_d (n : Int) t ht
    have e : fmt_d (n : Int) = fmt_u n := by
      unfold fmt_d
      rw [if_neg (by omega)]
      simp
    rw [e] at h
    simpa using h

/-- Counterexample to C11 as stated: the remainder `2x` is not a decimal integer, yet
`atoi` reads 2 and the handler plays card 2 of seat 0 exactly as for `PLAY_CARD:2`; the
state changes (Shield goes from power 5 to 4). -/
theorem C11_counterexample :
    ("PLAY_CARD:2x".toList).take 10 = PLAY_CARD
      ∧ atoi (("PLAY_CARD:2x".toList).drop 10) = 2
      ∧ handle_player_move accept_players 0 "PLAY_CARD:2x".toList
          = handle_player_move accept_players 0 "PLAY_CARD:2".toList
      ∧ handle_player_move accept_players 0 "PLAY_CARD:2x".toList ≠ some accept_players
      ∧ (handle_player_move accept_players 0 "PLAY_CARD:2x".toList).map
          (fun s => s.players.1.hand.map (fun c => c.power)) = some [7, 4, 6, 4, 5] := by
  decide

/-- C11 (amended). For every game state and seat `p` in `{0,1}` (with `hand_size` within
the hand array): (1) a line that begins with `PLAY_CARD:` leaves the state unchanged
exactly when the value `atoi` returns for the remainder is `< 1` or `> hand_size`; (2) a
line whose remainder holds no number for `atoi` (after white space and one optional sign
there is no digit, as in the empty remainder or `abc`) is read as 0 and leaves the state
unchanged; (3) a line whose remainder is white space, an optional `+`, the decimal digits
of a number `n` in `1..hand_size` and then any text not starting with a digit (as in
`2x`, ` 2`, `+2`, `2.5`) is read as `n`, and the handler plays card `n`: the card at
`hand[n-1]` has its power decremented and the hand is otherwise kept. -/
theorem C11_invalid_iff_atoi_out_of_range (gs : GameState) (p : Int) (pl : Player)
    (message m0 m2 ws t : List Char) (plus : Bool) (n : Nat)
    (hpl : gs.player p = some pl)
    (hwf : pl.hand_size ≤ pl.hand.length)
    (hpre : message.take 10 = PLAY_CARD)
    (hnone : has_number (m0.drop 10) = false)
    (hpre2 : m2.take 10 = PLAY_CARD)
    (hform : m2.drop 10 = ws ++ ((if plus then ['+'] else []) ++ (fmt_u n ++ t)))
    (hws : ∀ c ∈ ws, isspace c = true) (ht : starts_with_digit t = false)
    (hn1 : 1 ≤ n) (hn2 : (n : Int) ≤ pl.hand_size) (hn3 : isInt (n : Int)) :
    (handle_player_move gs p message = some gs
        ↔ (atoi (message.drop 10) < 1 ∨ atoi (message.drop 10) > pl.hand_size))
      ∧ (atoi (m0.drop 10) = 0 ∧ handle_player_move gs p m0 = some gs)
      ∧ (atoi (m2.drop 10) = n
          ∧ ∃ (card : Card) (gs1 : GameState) (actor1 : Player),
              pl.hand[n - 1]? = some card
              ∧ handle_player_move gs p m2 = some gs1
              ∧ gs1 ≠ gs
              ∧ gs1.player p = some actor1
              ∧ actor1.hand
                  = pl.hand.set (n - 1) { card with power := int32 (card.power - 1) }) := by
  have hrej : ∀ m : List Char,
      (atoi (m.drop 10) < 1 ∨ atoi (m.drop 10) > pl.hand_size) →
      handle_player_move gs p m = some gs := fun m h =>
    handle_rejected gs p m pl hpl (Or.inr h)
  refine ⟨⟨?_, hrej message⟩, ?_, ?_⟩
  · intro h
    by_contra hc
    push_neg at hc
    exact handle_valid_ne gs p message pl hpl hwf hpre hc.1 hc.2 h
  · have h0 := atoi_no_number _ hnone
    refine ⟨h0, hrej m0 (Or.inl ?_)⟩
    rw [h0]; decide
  · have hv : atoi_value (m2.drop 10) = n := by
      rw [hform]; exact atoi_value_prefixed ws t plus n hws ht
    have ha : atoi (m2.drop 10) = n := by
      rw [atoi_of_isInt _ (by rw [hv]; exact hn3), hv]
    have hidx : ((n : Int) - 1).toNat = n - 1 := by omega
    have hlen : n - 1 < pl.hand.length := by omega
    obtain ⟨opp, hopp⟩ := opponent_some hpl
    obtain ⟨gs1, actor1, opp1, hm, ha1, _, hhand, _⟩ :=
      handle_valid_result gs p m2 pl opp pl.hand[n - 1] n hpl hopp hpre2 ha
        (by omega) hn2 (by rw [hidx]; exact List.getElem?_eq_getElem hlen)
    rw [hidx] at hhand
    refine ⟨ha, _, gs1, actor1, List.getElem?_eq_getElem hlen, hm, ?_, ha1, hhand⟩
    intro hgs
    have hne := handle_valid_ne gs p m2 pl hpl hwf hpre2 (by rw [ha]; omega) (by rw [ha]; exact hn2)
    rw [hm, hgs] at hne
    exact hne rfl

/-- Witness for the amended C11, on the initial hand of seat 0: the iff at
`PLAY_CARD:2.5`, the rejection of `PLAY_CARD:abc`, and `PLAY_CARD: +2x` (a blank, a plus
sign, the digit 2, then `x`) played as card 2. -/
theorem C11_witness :
    (handle_player_move accept_players 0 "PLAY_CARD:2.5".toList = some accept_players
        ↔ (atoi (("PLAY_CARD:2.5".toList).drop 10) < 1
            ∨ atoi (("PLAY_CARD:2.5".toList).drop 10) > accept_players.players.1.hand_size))
      ∧ (atoi (("PLAY_CARD:abc".toList).drop 10) = 0
          ∧ handle_player_move accept_players 0 "PLAY_CARD:abc".toList = some accept_players)
      ∧ (atoi (("PLAY_CARD: +2x".toList).drop 10) = (2 : Nat)
          ∧ ∃ (card : Card) (gs1 : GameState) (actor1 : Player),
              accept_players.players.1.hand[2 - 1]? = some card
              ∧ handle_player_move accept_players 0 "PLAY_CARD: +2x".toList = some gs1
              ∧ gs1 ≠ accept_players
              ∧ gs1.player 0 = some actor1
              ∧ actor1.hand
                  = accept_players.players.1.hand.set (2 - 1)
                      { card with power := int32 (card.power - 1) }) :=
  C11_invalid_iff_atoi_out_of_range accept_players 0 accept_players.players.1
    "PLAY_CARD:2.5".toList "PLAY_CARD:abc".toList "PLAY_CARD: +2x".toList
    " ".toList "x".toList true 2
    (by rfl) (by decide) (by rfl) (by rfl) (by rfl) (by rfl) (by decide) (by rfl)
    (by decide) (by decide) (by decide)

/-! ## C18: card power has no floor -/

/-- Playing the same card `k` times lowers its power by `k`, as long as the decrements
stay within the range of `int`. -/
theorem handle_n_power (p : Int) (message : List Char) (i : Int)
    (hpre : message.take 10 = PLAY_CARD) (hi : atoi (message.drop 10) = i) (hlo : 1 ≤ i) :
    ∀ (k : Nat) (gs : GameState) (actor : Player) (card : Card),
      gs.player p = some actor → i ≤ actor.hand_size →
      actor.hand[(i - 1).toNat]? = some card →
      isInt card.power → isInt (card.power - (k : Int)) →
      ∃ (gsk : GameState) (actork : Player),
        handle_player_move_n p message k gs = some gsk
        ∧ gsk.player p = some actork
        ∧ actork.hand[(i - 1).toNat]? = some { card with power := card.power - (k : Int) } := by
  intro k
  induction k with
  | zero =>
    intro gs actor card hactor _ hcard _ _
    exact ⟨gs, actor, rfl, hactor, by simpa using hcard⟩
  | succ k ih =>
    intro gs actor card hactor hhi hcard hin hout
    have hlen : (i - 1).toNat < actor.hand.length := by
      rcases Nat.lt_or_ge (i - 1).toNat actor.hand.length with h | h
      · exact h
      · rw [List.getElem?_eq_none h] at hcard; simp at hcard
    have hstep : isInt (card.power - 1) := by
      unfold isInt INT_MIN INT_MAX at hin hout ⊢
      push_cast at hout
      omega
    obtain ⟨opp, hopp⟩ := opponent_some hactor
    obtain ⟨gs1, actor1, opp1, hm, ha1, _, hhand, hsz, _⟩ :=
      handle_valid_result gs p message actor opp card i hactor hopp hpre hi hlo hhi hcard
    rw [int32_of_isInt _ hstep] at hhand
    have hcard1 : actor1.hand[(i - 1).toNat]? = some { card with power := card.power - 1 } := by
      rw [hhand, List.getElem?_set_self hlen]
    obtain ⟨gsk, actork, hk1, hk2, hk3⟩ := ih gs1 actor1 _ ha1 (by rw [hsz]; exact hhi) hcard1
      hstep (by
        unfold isInt INT_MIN INT_MAX at hin hout ⊢
        push_cast at hout
        simp only
        omega)
    refine ⟨gsk, actork, ?_, hk2, ?_⟩
    · simp only [handle_player_move_n, hm]
      exact hk1
    · rw [hk3]
      simp only [Option.some.injEq, Card.mk.injEq, true_and, and_true]
      push_cast
      omega

/-- Counterexample to C18 as stated.  A card of power -2147483648 (the least `int`) played
once does not reach power `w - 1`: the decrement overflows and the stored power is
2147483647.  And an Attack card of power -1 played against health 2147483647 does not
raise it by 1: the subtraction overflows and the clamp leaves health 0. -/
theorem C18_counterexample :
    (handle_player_move_n 0 "PLAY_CARD:1".toList 1
        (with_card 0
          { name := "Fireball".toList, type := "Attack".toList, power := -2147483648 }
          20 20)).map
        (fun s => s.players.1.hand.map (fun c => c.power))
        = some [2147483647, 5, 6, 4, 5]
      ∧ (2147483647 : Int) ≠ -2147483648 - 1
      ∧ (handle_player_move
          (with_card 0 { name := "Fireball".toList, type := "Attack".toList, power := -1 }
            20 2147483647) 0 "PLAY_CARD:1".toList).map
          (fun s => s.players.2.health) = some 0
      ∧ (0 : Int) ≠ 2147483647 + 1 := by
  decide

/-- C18 (amended). (1) For a card of power `w` at a valid index of seat `p` and every `k`
such that `w - k` is still within the range of a C `int`, after `k` plays of that card by
`handle_player_move` its power is exactly `w - k` (negative as soon as `k > w`), with the
same name and type: there is no floor at 0.  (2) Playing an Attack card at power `-m`
with `m > 0`, when `h_opp + m` is within the `int` range, sets the health of the opponent
to `max 0 (h_opp + m)`, which is `h_opp + m` for `h_opp >= 0`.  (3) Playing a Defense
card at power `-m`, when `h_p - m` is within the `int` range, sets the health of the
actor to `min 20 (h_p - m)`, which is `h_p - m` for `h_p <= 20`. -/
theorem C18_no_floor_on_power
    (gs : GameState) (p : Int) (message : List Char) (actor : Player) (card : Card)
    (i : Int) (k : Nat)
    (gsA : GameState) (pA : Int) (messageA : List Char) (actorA oppA : Player)
    (cardA : Card) (iA mA : Int)
    (gsD : GameState) (pD : Int) (messageD : List Char) (actorD oppD : Player)
    (cardD : Card) (iD mD : Int)
    (hactor : gs.player p = some actor)
    (hpre : message.take 10 = PLAY_CARD) (hi : atoi (message.drop 10) = i)
    (hlo : 1 ≤ i) (hhi : i ≤ actor.hand_size)
    (hcard : actor.hand[(i - 1).toNat]? = some card)
    (hin : isInt card.power) (hout : isInt (card.power - (k : Int)))
    (hactorA : gsA.player pA = some actorA) (hoppA : gsA.player (1 - pA) = some oppA)
    (hpreA : messageA.take 10 = PLAY_CARD) (hiA : atoi (messageA.drop 10) = iA)
    (hloA : 1 ≤ iA) (hhiA : iA ≤ actorA.hand_size)
    (hcardA : actorA.hand[(iA - 1).toNat]? = some cardA)
    (htypeA : cardA.type = "Attack".toList)
    (hmA : 0 < mA) (hpowA : cardA.power = -mA) (hrangeA : isInt (oppA.health + mA))
    (hactorD : gsD.player pD = some actorD) (hoppD : gsD.player (1 - pD) = some oppD)
    (hpreD : messageD.take 10 = PLAY_CARD) (hiD : atoi (messageD.drop 10) = iD)
    (hloD : 1 ≤ iD) (hhiD : iD ≤ actorD.hand_size)
    (hcardD : actorD.hand[(iD - 1).toNat]? = some cardD)
    (htypeD : cardD.type = "Defense".toList)
    (hmD : 0 < mD) (hpowD : cardD.power = -mD) (hrangeD : isInt (actorD.health - mD)) :
    (∃ (gsk : GameState) (actork : Player),
        handle_player_move_n p message k gs = some gsk
        ∧ gsk.player p = some actork
        ∧ actork.hand[(i - 1).toNat]? = some { card with power := card.power - (k : Int) }
        ∧ (card.power < (k : Int) → card.power - (k : Int) < 0))
      ∧ (∃ (gs1 : GameState) (opp1 : Player),
            handle_player_move gsA pA messageA = some gs1
            ∧ gs1.player (1 - pA) = some opp1
            ∧ opp1.health = max 0 (oppA.health + mA)
            ∧ (0 ≤ oppA.health → opp1.health = oppA.health + mA))
      ∧ (∃ (gs1 : GameState) (actor1 : Player),
            handle_player_move gsD pD messageD = some gs1
            ∧ gs1.player pD = some actor1
            ∧ actor1.health = min 20 (actorD.health - mD)
            ∧ (actorD.health ≤ 20 → actor1.health = actorD.health - mD)) := by
  refine ⟨?_, ?_, ?_⟩
  · obtain ⟨gsk, actork, h1, h2, h3⟩ :=
      handle_n_power p message i hpre hi hlo k gs actor card hactor hhi hcard hin hout
    exact ⟨gsk, actork, h1, h2, h3, fun h => by omega⟩
  · obtain ⟨gs1, actor1, opp1, hm, _, ho1, _, _, _, _, _, _, hA, _, _⟩ :=
      handle_valid_result gsA pA messageA actorA oppA cardA iA hactorA hoppA hpreA hiA
        hloA hhiA hcardA
    have hs : strcmp cardA.type "Attack".toList = 0 := by rw [htypeA]; exact strcmp_self _
    have h := (hA hs).1
    have e : oppA.health - cardA.power = oppA.health + mA := by rw [hpowA]; omega
    rw [e, int32_of_isInt _ hrangeA] at h
    refine ⟨gs1, opp1, hm, ho1, h, ?_⟩
    intro hnn; rw [h]; omega
  · obtain ⟨gs1, actor1, opp1, hm, ha1, _, _, _, _, _, _, _, _, hD, _⟩ :=
      handle_valid_result gsD pD messageD actorD oppD cardD iD hactorD hoppD hpreD hiD
        hloD hhiD hcardD
    have hs1 : strcmp cardD.type "Attack".toList ≠ 0 := by rw [htypeD]; decide
    have hs2 : strcmp cardD.type "Defense".toList = 0 := by rw [htypeD]; exact strcmp_self _
    have h := (hD hs1 hs2).1
    have e : actorD.health + cardD.power = actorD.health - mD := by rw [hpowD]; omega
    rw [e, int32_of_isInt _ hrangeD] at h
    refine ⟨gs1, actor1, hm, ha1, h, ?_⟩
    intro hle; rw [h]; omega

/-- Witness for C18: Fireball (power 7) of seat 0 in the initial match played 10 times
ends at power -3; Fireball at power -3 raises the health of seat 1 from 20 to 23; Shield
at power -3 lowers the health of seat 0 from 20 to 17. -/
theorem C18_witness :
    (∃ (gsk : GameState) (actork : Player),
        handle_player_move_n 0 "PLAY_CARD:1".toList 10 accept_players = some gsk
        ∧ gsk.player 0 = some actork
        ∧ actork.hand[((1 : Int) - 1).toNat]?
            = some { name := "Fireball".toList, type := "Attack".toList,
                     power := 7 - ((10 : Nat) : Int) }
        ∧ ((7 : Int) < ((10 : Nat) : Int) → (7 : Int) - ((10 : Nat) : Int) < 0))
      ∧ (∃ (gs1 : GameState) (opp1 : Player),
            handle_player_move
              (with_card 0 { name := "Fireball".toList, type := "Attack".toList, power := -3 }
                20 20) 0 "PLAY_CARD:1".toList = some gs1
            ∧ gs1.player (1 - 0) = some opp1
            ∧ opp1.health = max 0 (20 + 3)
            ∧ (0 ≤ (20 : Int) → opp1.health = 20 + 3))
      ∧ (∃ (gs1 : GameState) (actor1 : Player),
            handle_player_move
              (with_card 1 { name := "Shield".toList, type := "Defense".toList, power := -3 }
                20 20) 0 "PLAY_CARD:2".toList = some gs1
            ∧ gs1.player 0 = some actor1
            ∧ actor1.health = min 20 (20 - 3)
            ∧ ((20 : Int) ≤ 20 → actor1.health = 20 - 3)) :=
  C18_no_floor_on_power
    accept_players 0 "PLAY_CARD:1".toList accept_players.players.1
    { name := "Fireball".toList, type := "Attack".toList, power := 7 } 1 10
    (with_card 0 { name := "Fireball".toList, type := "Attack".toList, power := -3 } 20 20)
    0 "PLAY_CARD:1".toList
    (with_card 0 { name := "Fireball".toList, type := "Attack".toList, power := -3 }
      20 20).players.1
    (with_card 0 { name := "Fireball".toList, type := "Attack".toList, power := -3 }
      20 20).players.2
    { name := "Fireball".toList, type := "Attack".toList, power := -3 } 1 3
    (with_card 1 { name := "Shield".toList, type := "Defense".toList, power := -3 } 20 20)
    0 "PLAY_CARD:2".toList
    (with_card 1 { name := "Shield".toList, type := "Defense".toList, power := -3 }
      20 20).players.1
    (with_card 1 { name := "Shield".toList, type := "Defense".toList, power := -3 }
      20 20).players.2
    { name := "Shield".toList, type := "Defense".toList, power := -3 } 2 3
    (by rfl) (by rfl) (by rfl) (by decide) (by decide) (by rfl) (by decide) (by decide)
    (by rfl) (by rfl) (by rfl) (by rfl) (by decide) (by decide) (by rfl) (by rfl)
    (by decide) (by rfl) (by decide)
    (by rfl) (by rfl) (by rfl) (by rfl) (by decide) (by decide) (by rfl) (by rfl)
    (by decide) (by rfl) (by decide)


end Server
